import Mathlib

/-!
# Verification of the pycalver v2 version-pattern engine

A shallow embedding of `src/pycalver/v2version.py` (segment trees, pattern
compilation, regex-style matching, version formatting and the increment
algorithm), together with theorems settling the specification claims.

The modules `pycalver/version.py`, `pycalver/v2patterns.py` and the external
`lexid` package are not part of the provided sources; the definitions that
stand in for them are modelled from the natural-language specification and
are marked `Modelled from the spec:` in their doc comments.  Everything else
is translated directly from `v2version.py`.
-/

set_option maxRecDepth 10000
set_option linter.unusedVariables false

namespace PyCalVer

/-- Decidable test for an ASCII decimal digit character. -/
def isDig (c : Char) : Bool :=
  '0' ≤ c && c ≤ '9'

/-- The digit character for a value `0 ≤ n ≤ 9`. -/
def digitChar (n : Nat) : Char :=
  Char.ofNat (48 + n)

/-- Recursion of `natDigits`; `fuel` only bounds the recursion depth and
`natDigits` always supplies enough. -/
def natDigitsGo (fuel n : Nat) : List Char :=
  match fuel with
  | 0 => []
  | fuel + 1 =>
    if n < 10 then [digitChar n]
    else natDigitsGo fuel (n / 10) ++ [digitChar (n % 10)]

/-- Decimal digits of a non-negative number, most significant first.
Helper for `natToStr` (Python `str` on a non-negative int). -/
def natDigits (n : Nat) : List Char :=
  natDigitsGo (n + 1) n

/-- Python `str` on a non-negative integer: decimal, no padding, no sign. -/
def natToStr (n : Nat) : String :=
  ⟨natDigits n⟩

/-- Value of one digit character. -/
def digVal (c : Char) : Nat :=
  c.toNat - 48

/-- Left fold used by `strToNat`. -/
def strToNatAux (acc : Nat) : List Char → Nat
  | [] => acc
  | c :: cs => strToNatAux (acc * 10 + digVal c) cs

/-- Python `int` on a decimal digit string (all call sites pass strings the
matcher produced, which consist of digits only). -/
def strToNat (s : String) : Nat :=
  strToNatAux 0 s.data

/-- Zero-pad a decimal rendering on the left to a given width
(Python `"%02d"`-style formatting used by the zero-padded parts). -/
def padNat (width n : Nat) : String :=
  ⟨List.replicate (width - (natDigits n).length) '0' ++ natDigits n⟩

/-- `List.isPrefixOf` as an executable Bool over characters. -/
def listPrefix : List Char → List Char → Bool
  | [], _ => true
  | _ :: _, [] => false
  | a :: as, b :: bs => a = b && listPrefix as bs

/-- Does `pat` occur as a contiguous substring of `s` (Python `in`)? -/
def listContains (s pat : List Char) : Bool :=
  match s with
  | [] => listPrefix pat []
  | _ :: tl => listPrefix pat s || listContains tl pat

/-- First index at which `pat` occurs in `s`, if any (Python `str.find`). -/
def listFind (s pat : List Char) : Option Nat :=
  match s with
  | [] => if listPrefix pat [] then some 0 else none
  | _ :: tl =>
    if listPrefix pat s then some 0
    else (listFind tl pat).map (· + 1)

/-- Recursion of `listReplace`, bounded by `fuel` (always sufficient at
the call site since every step consumes at least one character). -/
def listReplaceGo (fuel : Nat) (s pat r : List Char) : List Char :=
  match fuel with
  | 0 => s
  | fuel + 1 =>
    match s, pat with
    | [], _ => []
    | c :: tl, [] => c :: tl
    | c :: tl, p :: ps =>
      if listPrefix (p :: ps) (c :: tl) then
        r ++ listReplaceGo fuel ((c :: tl).drop (p :: ps).length) (p :: ps) r
      else c :: listReplaceGo fuel tl (p :: ps) r

/-- Replace every (leftmost, non-overlapping) occurrence of the non-empty
pattern `pat` by `r` (Python `str.replace`). -/
def listReplace (s pat r : List Char) : List Char :=
  listReplaceGo (s.length + 1) s pat r

/-- Python `pat in s` on strings. -/
def strContains (s pat : String) : Bool :=
  listContains s.data pat.data

/-- Python `s.replace(pat, r)` on strings. -/
def strReplace (s pat r : String) : String :=
  ⟨listReplace s.data pat.data r.data⟩

/-- Python `s.find(pat)` on strings (`none` for not found, -1 in Python). -/
def strFind (s pat : String) : Option Nat :=
  listFind s.data pat.data

/-- The longest prefix of `s` consisting of digit characters. -/
def digitRun : List Char → List Char
  | [] => []
  | c :: tl => if isDig c then c :: digitRun tl else []

/-- Widths from `hi` down to `lo` (inclusive), used to enumerate greedy
match candidates longest-first. -/
def descLens (hi lo : Nat) : List Nat :=
  if hi < lo then [] else (List.range (hi + 1 - lo)).map (fun i => hi - i)

/-! ## Calendar arithmetic

Modelled from the spec: the Calendar Deriver (spec 4.2) must match ISO-8601
week/year semantics for `week_v`/`year_g` and Python `%W`/`%U` semantics for
`week_w`/`week_u`, with day-of-year 1-indexed.  These are the proleptic
Gregorian calendar rules used by Python's `datetime.date.strftime`. -/

/-- Gregorian leap-year rule. -/
def isLeap (y : Nat) : Bool :=
  (y % 4 = 0 && y % 100 != 0) || y % 400 = 0

/-- Number of days in month `m` of year `y`. -/
def daysInMonth (y m : Nat) : Nat :=
  if m = 2 then (if isLeap y then 29 else 28)
  else if m = 4 || m = 6 || m = 9 || m = 11 then 30
  else 31

/-- Number of days in year `y`. -/
def daysInYear (y : Nat) : Nat :=
  if isLeap y then 366 else 365

/-- Days in year `y` that precede month `m`. -/
def daysBeforeMonth (y m : Nat) : Nat :=
  ((List.range (m - 1)).map (fun i => daysInMonth y (i + 1))).sum

/-- 1-indexed day of year of `(y, m, d)` (Python `%j`). -/
def doyOf (y m d : Nat) : Nat :=
  daysBeforeMonth y m + d

/-- Days of the proleptic Gregorian calendar strictly before year `y`. -/
def daysBeforeYear (y : Nat) : Nat :=
  (y - 1) * 365 + (y - 1) / 4 - (y - 1) / 100 + (y - 1) / 400

/-- Proleptic Gregorian ordinal of `(y, m, d)`; `0001-01-01` is day 1. -/
def ordinalOf (y m d : Nat) : Nat :=
  daysBeforeYear y + doyOf y m d

/-- ISO weekday of `(y, m, d)`: Monday = 1 .. Sunday = 7
(`0001-01-01` was a Monday). -/
def isoWeekday (y m d : Nat) : Nat :=
  (ordinalOf y m d - 1) % 7 + 1

/-- Python `%W`: week of year with Monday as first day; days before the
first Monday are week 0. -/
def weekWOf (y m d : Nat) : Nat :=
  (doyOf y m d + 7 - isoWeekday y m d) / 7

/-- Python `%U`: week of year with Sunday as first day; days before the
first Sunday are week 0. -/
def weekUOf (y m d : Nat) : Nat :=
  (doyOf y m d + 6 - isoWeekday y m d % 7) / 7

/-- Number of ISO-8601 weeks in year `y` (52 or 53). -/
def isoWeeksInYear (y : Nat) : Nat :=
  if isoWeekday y 1 1 = 4 || (isLeap y && isoWeekday y 1 1 = 3) then 53 else 52

/-- ISO-8601 (week, week-numbering-year) of `(y, m, d)`
(Python `%V` and `%G`). -/
def isoWeekYear (y m d : Nat) : Nat × Nat :=
  let w := (doyOf y m d + 10 - isoWeekday y m d) / 7
  if w = 0 then (isoWeeksInYear (y - 1), y - 1)
  else if w = 53 && isoWeeksInYear y = 52 then (1, y + 1)
  else (w, y)

/-- A concrete calendar date (`datetime.date`); constructors validate
through `isValidDate` at the call sites that mirror `dt.date(...)`. -/
structure Date where
  year : Nat
  month : Nat
  day : Nat
deriving DecidableEq

/-- The validity condition `datetime.date(year, month, day)` enforces
(construction raises `ValueError` otherwise). -/
def isValidDate (y m d : Nat) : Bool :=
  1 ≤ y && y ≤ 9999 && 1 ≤ m && m ≤ 12 && 1 ≤ d && d ≤ daysInMonth y m

/-! ## Data model -/

/-- `version.V2CalendarInfo` (modelled from the spec: the field tuple of the
Version Info Model's calendar group, in its declaration order, which
`_is_cal_gt` iterates as `V2CalendarInfo._fields`). -/
structure V2CalendarInfo where
  year_y : Option Nat
  year_g : Option Nat
  quarter : Option Nat
  month : Option Nat
  dom : Option Nat
  doy : Option Nat
  week_w : Option Nat
  week_u : Option Nat
  week_v : Option Nat
deriving DecidableEq

/-- `version.V2VersionInfo` (modelled from the spec: calendar group,
semantic-version group, release group, build id and the two increment
counters; `bid` is optional because an optional unmatched `BUILD`/`BLD`
part leaves its captured value `None`). -/
structure V2VersionInfo where
  year_y : Option Nat
  year_g : Option Nat
  quarter : Option Nat
  month : Option Nat
  dom : Option Nat
  doy : Option Nat
  week_w : Option Nat
  week_u : Option Nat
  week_v : Option Nat
  major : Nat
  minor : Nat
  patch : Nat
  num : Nat
  bid : Option String
  tag : String
  pytag : String
  inc0 : Nat
  inc1 : Nat
deriving DecidableEq

/-- The exceptions the embedded code can raise.  `patternError` is
`version.PatternError` (raised for compile and match failures and the only
kind `incr`/`is_valid` catch); `invalidDate` covers `ValueError` from
`datetime.date` and the spec's `InvalidDateError`; `typeError` is Python
`TypeError` (e.g. `int(None)`); `valueError` is the plain `ValueError`
raised by `_parse_segtree`. -/
inductive Err where
  | patternError (msg : String)
  | invalidDate (msg : String)
  | typeError (msg : String)
  | valueError (msg : String)
deriving DecidableEq

/-- `v2version.cal_info` on a concrete date: all nine calendar fields. -/
def cal_info (date : Date) : V2CalendarInfo :=
  { year_y := some date.year
    year_g := some (isoWeekYear date.year date.month date.day).2
    quarter := some ((date.month + 2) / 3)
    month := some date.month
    dom := some date.day
    doy := some (doyOf date.year date.month date.day)
    week_w := some (weekWOf date.year date.month date.day)
    week_u := some (weekUOf date.year date.month date.day)
    week_v := some (isoWeekYear date.year date.month date.day).1 }

/-- `version.quarter_from_month` (modelled from the spec: quarter 1-4
derived from the month). -/
def quarter_from_month (m : Nat) : Nat :=
  (m + 2) / 3

/-- `v2version._ver_to_cal_info`: project the nine calendar fields. -/
def ver_to_cal_info (vinfo : V2VersionInfo) : V2CalendarInfo :=
  { year_y := vinfo.year_y
    year_g := vinfo.year_g
    quarter := vinfo.quarter
    month := vinfo.month
    dom := vinfo.dom
    doy := vinfo.doy
    week_w := vinfo.week_w
    week_u := vinfo.week_u
    week_v := vinfo.week_v }

/-- Python list comparison `lvals > rvals` on lists of ints:
lexicographic, with a longer list beating its proper prefix. -/
def listGtNat : List Nat → List Nat → Bool
  | _ :: _, [] => true
  | [], _ => false
  | a :: as, b :: bs => a > b || (a = b && listGtNat as bs)

/-- One position of the `lvals`/`rvals` collection in `_is_cal_gt`: the
pair of values when both sides are non-`None`, nothing otherwise. -/
def calPick (l r : Option Nat) : List (Nat × Nat) :=
  match l, r with
  | some lv, some rv => [(lv, rv)]
  | _, _ => []

/-- The common (both non-`None`) calendar fields of `left` and `right`, as
value pairs in `V2CalendarInfo._fields` order. -/
def calCommonPairs (left right : V2CalendarInfo) : List (Nat × Nat) :=
  calPick left.year_y right.year_y ++ calPick left.year_g right.year_g ++
  calPick left.quarter right.quarter ++ calPick left.month right.month ++
  calPick left.dom right.dom ++ calPick left.doy right.doy ++
  calPick left.week_w right.week_w ++ calPick left.week_u right.week_u ++
  calPick left.week_v right.week_v

/-- The `lvals` and `rvals` lists `_is_cal_gt` builds. -/
def calCommonVals (left right : V2CalendarInfo) : List Nat × List Nat :=
  ((calCommonPairs left right).map Prod.fst,
   (calCommonPairs left right).map Prod.snd)

/-- `v2version._is_cal_gt`: "is left > right for non-None fields", via
Python list comparison of the collected field values. -/
def is_cal_gt (left right : V2CalendarInfo) : Bool :=
  listGtNat (calCommonVals left right).1 (calCommonVals left right).2

/-! ## Part tokens, field binding and lookup tables -/

/-- `v2patterns.PATTERN_PART_FIELDS` (modelled from the spec: the part
tokens of spec section 3 bound to the VersionInfo field each references,
e.g. `0M -> month`, `BLD -> bid`, `RELEASE -> tag`), in the spec's listing
order (the Python dict preserves insertion order). -/
def PATTERN_PART_FIELDS : List (String × String) :=
  [("YYYY", "year_y"), ("YY", "year_y"), ("0Y", "year_y"),
   ("MM", "month"), ("0M", "month"),
   ("DD", "dom"), ("0D", "dom"),
   ("JJJ", "doy"), ("00J", "doy"),
   ("WW", "week_w"), ("0W", "week_w"),
   ("UU", "week_u"), ("0U", "week_u"),
   ("VV", "week_v"), ("0V", "week_v"),
   ("GGGG", "year_g"), ("GG", "year_g"), ("0G", "year_g"),
   ("MAJOR", "major"), ("MINOR", "minor"), ("PATCH", "patch"),
   ("BUILD", "bid"), ("BLD", "bid"),
   ("RELEASE", "tag"), ("PYTAG", "pytag"), ("NUM", "num")]

/-- First value bound to `k` in an association list (Python dict lookup /
`dict.get`; keys are unique at every call site). -/
def alookup (k : String) : List (String × α) → Option α
  | [] => none
  | (k', v) :: rest => if k' = k then some v else alookup k rest

/-- A dynamically typed field value, as Python's `getattr` sees it:
plain int, optional int, string, or optional string. -/
inductive FVal where
  | n (v : Nat)
  | on (v : Option Nat)
  | s (v : String)
  | os (v : Option String)
deriving DecidableEq

/-- The eighteen VersionInfo attribute names, as an enumeration (the
string-keyed `getattr`/`_replace` calls dispatch through it). -/
inductive Fd where
  | year_y | year_g | quarter | month | dom | doy | week_w | week_u | week_v
  | major | minor | patch | num | bid | tag | pytag | inc0 | inc1
deriving DecidableEq

/-- The attribute name of a field. -/
def keyOfFd : Fd → String
  | .year_y => "year_y"
  | .year_g => "year_g"
  | .quarter => "quarter"
  | .month => "month"
  | .dom => "dom"
  | .doy => "doy"
  | .week_w => "week_w"
  | .week_u => "week_u"
  | .week_v => "week_v"
  | .major => "major"
  | .minor => "minor"
  | .patch => "patch"
  | .num => "num"
  | .bid => "bid"
  | .tag => "tag"
  | .pytag => "pytag"
  | .inc0 => "inc0"
  | .inc1 => "inc1"

/-- The field table: attribute name to field. -/
def FIELD_BY_KEY : List (String × Fd) :=
  [("year_y", .year_y), ("year_g", .year_g), ("quarter", .quarter),
   ("month", .month), ("dom", .dom), ("doy", .doy),
   ("week_w", .week_w), ("week_u", .week_u), ("week_v", .week_v),
   ("major", .major), ("minor", .minor), ("patch", .patch),
   ("num", .num), ("bid", .bid), ("tag", .tag), ("pytag", .pytag),
   ("inc0", .inc0), ("inc1", .inc1)]

/-- The field a (valid) attribute name denotes. -/
def fieldOfKey (k : String) : Option Fd :=
  alookup k FIELD_BY_KEY

/-- Read one field. -/
def getFd (fd : Fd) (v : V2VersionInfo) : FVal :=
  match fd with
  | .year_y => .on v.year_y
  | .year_g => .on v.year_g
  | .quarter => .on v.quarter
  | .month => .on v.month
  | .dom => .on v.dom
  | .doy => .on v.doy
  | .week_w => .on v.week_w
  | .week_u => .on v.week_u
  | .week_v => .on v.week_v
  | .major => .n v.major
  | .minor => .n v.minor
  | .patch => .n v.patch
  | .num => .n v.num
  | .bid => .os v.bid
  | .tag => .s v.tag
  | .pytag => .s v.pytag
  | .inc0 => .n v.inc0
  | .inc1 => .n v.inc1

/-- Write one field (a shape-mismatched value leaves the record
unchanged; every call site passes values of the field's own shape). -/
def setFd (fd : Fd) (x : FVal) (v : V2VersionInfo) : V2VersionInfo :=
  match fd with
  | .year_y => match x with | .on w => { v with year_y := w } | _ => v
  | .year_g => match x with | .on w => { v with year_g := w } | _ => v
  | .quarter => match x with | .on w => { v with quarter := w } | _ => v
  | .month => match x with | .on w => { v with month := w } | _ => v
  | .dom => match x with | .on w => { v with dom := w } | _ => v
  | .doy => match x with | .on w => { v with doy := w } | _ => v
  | .week_w => match x with | .on w => { v with week_w := w } | _ => v
  | .week_u => match x with | .on w => { v with week_u := w } | _ => v
  | .week_v => match x with | .on w => { v with week_v := w } | _ => v
  | .major => match x with | .n w => { v with major := w } | _ => v
  | .minor => match x with | .n w => { v with minor := w } | _ => v
  | .patch => match x with | .n w => { v with patch := w } | _ => v
  | .num => match x with | .n w => { v with num := w } | _ => v
  | .bid => match x with | .os w => { v with bid := w } | _ => v
  | .tag => match x with | .s w => { v with tag := w } | _ => v
  | .pytag => match x with | .s w => { v with pytag := w } | _ => v
  | .inc0 => match x with | .n w => { v with inc0 := w } | _ => v
  | .inc1 => match x with | .n w => { v with inc1 := w } | _ => v

/-- Python `getattr(vinfo, field)` for the V2VersionInfo fields. -/
def getFieldVal (field : String) (v : V2VersionInfo) : FVal :=
  match fieldOfKey field with
  | some fd => getFd fd v
  | none => .n 0

/-- Build a V2VersionInfo with one field replaced (the `_replace` /
keyword-update idiom).  A shape-mismatched value leaves the record
unchanged; every call site passes values of the field's own shape. -/
def setFieldVal (field : String) (x : FVal) (v : V2VersionInfo) : V2VersionInfo :=
  match fieldOfKey field with
  | some fd => setFd fd x v
  | none => v

/-- `version.V2_FIELD_INITIAL_VALUES` (modelled from the spec: the fields
with a defined initial value for the reset cascade — the semantic-version
fields and the release counter restart at 0, `inc0` at 0, `inc1` at 1, and
the release tags at their absent defaults `final` / empty). -/
def V2_FIELD_INITIAL_VALUES : List (String × FVal) :=
  [("major", .n 0), ("minor", .n 0), ("patch", .n 0),
   ("tag", .s "final"), ("pytag", .s ""),
   ("num", .n 0), ("inc0", .n 0), ("inc1", .n 1)]

/-- `version.PEP440_TAG_BY_RELEASE` (modelled from the spec: release-name
to PEP-440 short code). -/
def PEP440_TAG_BY_RELEASE : List (String × String) :=
  [("alpha", "a"), ("beta", "b"), ("dev", "dev"), ("rc", "rc"),
   ("post", "post"), ("final", "")]

/-- `version.RELEASE_BY_PEP440_TAG` (modelled from the spec: the inverse
lookup table). -/
def RELEASE_BY_PEP440_TAG : List (String × String) :=
  [("a", "alpha"), ("b", "beta"), ("dev", "dev"), ("rc", "rc"),
   ("post", "post")]

/-- `version.is_zero_val` (modelled from the spec: a rendered part value is
"zero" when it is the default/absent value for that part — 0 for the
counters, `final`/empty for the release tags; calendar parts and the build
id have no zero value). -/
def is_zero_val (part val : String) : Bool :=
  match alookup part
      [("MAJOR", "0"), ("MINOR", "0"), ("PATCH", "0"), ("NUM", "0"),
       ("RELEASE", "final"), ("PYTAG", "")] with
  | some z => z = val
  | none => false

/-- `lexid.next_id` (modelled from the spec: the external monotonic
build-id generator returns the next numeric string of equal-or-greater
width, e.g. `0999 -> 1000`, growing in width instead of wrapping). -/
def lexid_next_id (s : String) : String :=
  padNat s.length (strToNat s + 1)

/-! ## The reset cascade (`_iter_reset_field_items`) -/

/-- Loop body of `v2version._iter_reset_field_items`: walk the pattern
fields left to right; once any field's old/current values differ
(`has_reset`), every later field with a defined initial value is yielded
with that initial value. -/
def iter_reset_go (old cur : V2VersionInfo) (hasReset : Bool) :
    List String → List (String × FVal)
  | [] => []
  | f :: rest =>
    match alookup f V2_FIELD_INITIAL_VALUES with
    | some iv =>
      if hasReset then (f, iv) :: iter_reset_go old cur true rest
      else if getFieldVal f old ≠ getFieldVal f cur then
        iter_reset_go old cur true rest
      else
        iter_reset_go old cur false rest
    | none =>
      if getFieldVal f old ≠ getFieldVal f cur then
        iter_reset_go old cur true rest
      else
        iter_reset_go old cur hasReset rest

/-- `v2version._iter_reset_field_items`. -/
def iter_reset_field_items (fields : List String) (old cur : V2VersionInfo) :
    List (String × FVal) :=
  iter_reset_go old cur false fields

/-- Apply the reset dict to a version info: `cur_kwargs.update(reset_fields)`
followed by rebuilding the tuple (last write wins, as in a Python dict). -/
def applyResets (items : List (String × FVal)) (v : V2VersionInfo) : V2VersionInfo :=
  items.foldl (fun acc fx => setFieldVal fx.1 fx.2 acc) v

/-! ## Segment trees (`_parse_segtree`) -/

/-- The segment tree: a segment string, or a nested optional group.  The
tree proper is a `List SegNode` (the Python nested list of lists/strings). -/
inductive SegNode where
  | seg (s : String)
  | sub (t : List SegNode)

/-- Loop of `v2version._parse_segtree` over the bracket-wrapped pattern:
`stack` is the branch stack (bottom element is the internal root), each
level accumulated in reverse; `buf` is the current segment, reversed;
`prev` is the previous character (for escape detection, exactly as the
Python `raw_pattern[i-1] == "\\"` test). -/
def segtreeGo : List Char → Char → List Char → List (List SegNode) →
    Except Err (List SegNode)
  | [], _, _, stack =>
    match stack with
    | [root] =>
      match root.reverse with
      | .sub t :: _ => .ok t
      | _ => .error (.valueError "malformed segment tree root")
    | _ => .error (.valueError "Unclosed brace")
  | c :: rest, prev, buf, stack =>
    if (c = '[' || c = ']') && prev ≠ '\\' then
      let stack1 :=
        if buf.isEmpty then stack
        else
          match stack with
          | top :: below => (SegNode.seg ⟨buf.reverse⟩ :: top) :: below
          | [] => []
      if c = '[' then
        segtreeGo rest c [] ([] :: stack1)
      else
        match stack1 with
        | top :: parent :: rest2 =>
          segtreeGo rest c [] ((SegNode.sub top.reverse :: parent) :: rest2)
        | _ => .error (.valueError "Unbalanced brace")
    else
      segtreeGo rest c (c :: buf) stack

/-- `v2version._parse_segtree`: generate the segment tree of a pattern
(the pattern is wrapped in one outer bracket pair first). -/
def parse_segtree (raw_pattern : String) : Except Err (List SegNode) :=
  segtreeGo ('[' :: raw_pattern.data ++ [']']) ' ' [] [[]]

mutual

/-- The segment strings of one node, in depth-first order. -/
def flatNode : SegNode → List String
  | .seg s => [s]
  | .sub t => flatList t

/-- The segment strings of a node list, in depth-first order. -/
def flatList : List SegNode → List String
  | [] => []
  | n :: rest => flatNode n ++ flatList rest

end

/-- `v2version._iter_flat_segtree`: flatten to the segment strings in
depth-first order. -/
def iter_flat_segtree (segtree : List SegNode) : List String :=
  flatList segtree

/-- The part tokens sorted by length, descending (a stable sort, as
Python's `list.sort(key=len, reverse=True)`); tokens of equal length keep
their `PATTERN_PART_FIELDS` order. -/
def partsByLenDesc : List String :=
  (((List.range 8).reverse).map
    (fun n => (PATTERN_PART_FIELDS.map Prod.fst).filter (fun p => p.length = n))).flatten

/-- Insert into an association list keyed by `(segment index, char index)`,
replacing an existing binding (Python dict assignment). -/
def insertKey (k : Nat × Nat) (v : String) :
    List ((Nat × Nat) × String) → List ((Nat × Nat) × String)
  | [] => [(k, v)]
  | (k', v') :: rest =>
    if k' = k then (k, v) :: rest else (k', v') :: insertKey k v rest

/-- Ordered insertion for sorting dict items by their `(Nat × Nat)` key. -/
def insSortedKey (x : (Nat × Nat) × String) :
    List ((Nat × Nat) × String) → List ((Nat × Nat) × String)
  | [] => [x]
  | y :: rest =>
    if x.1.1 < y.1.1 || (x.1.1 = y.1.1 && x.1.2 ≤ y.1.2) then x :: y :: rest
    else y :: insSortedKey x rest

/-- `sorted(...)` on the dict items of `_parse_pattern_fields`. -/
def sortByKey (l : List ((Nat × Nat) × String)) : List ((Nat × Nat) × String) :=
  l.foldl (fun acc x => insSortedKey x acc) []

/-- The field insertions one flattened segment contributes: for every part
token found in the segment (longest tokens first), bind the key
`(segment index, char index of the first occurrence)` to the part's field,
later insertions replacing earlier ones at the same key. -/
def segmentFieldItems (segIdx : Nat) (segment : String)
    (acc : List ((Nat × Nat) × String)) : List ((Nat × Nat) × String) :=
  partsByLenDesc.foldl
    (fun acc part =>
      match strFind segment part with
      | some idx =>
        match alookup part PATTERN_PART_FIELDS with
        | some field => insertKey (segIdx, idx) field acc
        | none => acc
      | none => acc)
    acc

/-- `v2version._parse_pattern_fields`: the VersionInfo fields the pattern
references, ordered by `(segment index, char index)`. -/
def parse_pattern_fields (raw_pattern : String) : Except Err (List String) :=
  (parse_segtree raw_pattern).map (fun segtree =>
    let segments := iter_flat_segtree segtree
    let items := (segments.enum.foldl
      (fun acc si => segmentFieldItems si.1 si.2 acc) [])
    (sortByKey items).map Prod.snd)

/-! ## Pattern compilation (`v2patterns.compile_pattern`)

Modelled from the spec: the compiler turns the segment tree into a single
anchored matcher; parts are substituted by sub-patterns sized to their
semantics (`YYYY` exactly 4 digits, `BUILD` 4+ digits, `BLD` flexible
width, `MAJOR`/`MINOR`/`PATCH`/`NUM` 1+ digits, `RELEASE`/`PYTAG`
alternations of the five tag names / short codes), literals match
verbatim, and optional groups become optional non-capturing groups.  The
matcher below implements the Python-regex leftmost match with greedy,
backtracking quantifiers over exactly this atom language. -/

/-- One element of the compiled matcher: a literal character, a part token
(matching per that part's sub-pattern and capturing into its bound field),
or an optional group. -/
inductive Atom where
  | lit (c : Char)
  | part (tok : String)
  | opt (g : List Atom)

/-- Greedy candidate list (longest first) for a digit sub-pattern of width
`minW ..` (`maxW` bounds the width if given) whose value must lie in
`range` if given.  Each candidate is the captured text plus the rest. -/
def varDigits (minW : Nat) (maxW : Option Nat) (range : Option (Nat × Nat))
    (cs : List Char) : List (String × List Char) :=
  let run := digitRun cs
  let top := match maxW with | some h => min run.length h | none => run.length
  (descLens top minW).filterMap (fun k =>
    let d := cs.take k
    let ok := match range with
      | some lohi => lohi.1 ≤ strToNatAux 0 d && strToNatAux 0 d ≤ lohi.2
      | none => true
    if ok then some ((⟨d⟩ : String), cs.drop k) else none)

/-- Candidates of an alternation sub-pattern, in listed order (the order a
Python regex alternation tries its branches). -/
def altCands (alts : List String) (cs : List Char) : List (String × List Char) :=
  alts.filterMap (fun a =>
    if listPrefix a.data cs then some (a, cs.drop a.length) else none)

/-- The sub-pattern of each part token, as its greedy candidate list on a
given input suffix. -/
def partCands (tok : String) (cs : List Char) : List (String × List Char) :=
  match tok with
  | "YYYY" | "GGGG" => varDigits 4 (some 4) none cs
  | "YY" | "GG" => varDigits 1 (some 2) none cs
  | "0Y" | "0G" => varDigits 2 (some 2) none cs
  | "MM" => varDigits 1 (some 2) (some (1, 12)) cs
  | "0M" => varDigits 2 (some 2) (some (1, 12)) cs
  | "DD" => varDigits 1 (some 2) (some (1, 31)) cs
  | "0D" => varDigits 2 (some 2) (some (1, 31)) cs
  | "JJJ" => varDigits 1 (some 3) (some (1, 366)) cs
  | "00J" => varDigits 3 (some 3) (some (1, 366)) cs
  | "WW" | "UU" => varDigits 1 (some 2) (some (0, 53)) cs
  | "0W" | "0U" => varDigits 2 (some 2) (some (0, 53)) cs
  | "VV" => varDigits 1 (some 2) (some (1, 53)) cs
  | "0V" => varDigits 2 (some 2) (some (1, 53)) cs
  | "MAJOR" | "MINOR" | "PATCH" | "NUM" => varDigits 1 none none cs
  | "BUILD" => varDigits 4 none none cs
  | "BLD" => varDigits 1 none none cs
  | "RELEASE" => altCands ["alpha", "beta", "dev", "rc", "post"] cs
  | "PYTAG" => altCands ["a", "b", "dev", "rc", "post"] cs
  | _ => []

/-- Part recognition inside one segment: the first (longest) part token
that is a prefix of the remaining text, per the greedy longest-token rule. -/
def findTok (cs : List Char) : Option String :=
  partsByLenDesc.find? (fun t => listPrefix t.data cs)

/-- Compile one segment string to atoms: escaped brackets become literal
bracket characters, recognized part tokens become part atoms (longest
first), and every other character matches verbatim.  `fuel` only bounds
the recursion; `compileSeg` supplies enough for the whole segment. -/
def compileSegGo (fuel : Nat) (cs : List Char) : List Atom :=
  match fuel with
  | 0 => []
  | fuel + 1 =>
    match cs with
    | [] => []
    | '\\' :: c2 :: rest =>
      if c2 = '[' || c2 = ']' then Atom.lit c2 :: compileSegGo fuel rest
      else Atom.lit '\\' :: compileSegGo fuel (c2 :: rest)
    | c :: rest =>
      match findTok (c :: rest) with
      | some tok => Atom.part tok :: compileSegGo fuel ((c :: rest).drop tok.length)
      | none => Atom.lit c :: compileSegGo fuel rest

/-- Compile one segment string to its atom sequence. -/
def compileSeg (s : String) : List Atom :=
  compileSegGo (s.length + 1) s.data

mutual

/-- Compile one segment-tree node to atoms; a bracketed group becomes one
optional group atom. -/
def compileNode : SegNode → List Atom
  | .seg s => compileSeg s
  | .sub t => [Atom.opt (compileNodes t)]

/-- Compile a segment tree to atoms. -/
def compileNodes : List SegNode → List Atom
  | [] => []
  | n :: r => compileNode n ++ compileNodes r

end

/-- `v2patterns.compile_pattern`: segment tree plus regex assembly.
Modelled from the spec: unbalanced or unclosed brackets are a hard compile
failure, and compile failures are recoverable pattern errors at the caller
(the spec's `CompileError`/`UnbalancedBracketError`, reported as a value by
the Incrementer and the validation functions). -/
def compile_pattern (raw_pattern : String) : Except Err (List Atom) :=
  match parse_segtree raw_pattern with
  | .ok t => .ok (compileNodes t)
  | .error _ => .error (.patternError "Unbalanced brackets in pattern")

/-! ## The matcher -/

mutual

/-- Size of an atom, used to bound the matcher's recursion depth. -/
def asize : Atom → Nat
  | .lit _ => 1
  | .part _ => 1
  | .opt g => 1 + asizeList g

/-- Total size of an atom list. -/
def asizeList : List Atom → Nat
  | [] => 0
  | a :: r => asize a + asizeList r

end

/-- The named capture groups: every field referenced by the pattern, bound
to the last text its group matched, or `none` (Python `match.groupdict()`). -/
abbrev Caps := List (String × Option String)

mutual

/-- The fields one atom references. -/
def atomFieldsOf : Atom → List String
  | .lit _ => []
  | .part tok =>
    match alookup tok PATTERN_PART_FIELDS with
    | some f => [f]
    | none => []
  | .opt g => atomFields g

/-- The fields the atoms reference, in order of appearance. -/
def atomFields : List Atom → List String
  | [] => []
  | a :: r => atomFieldsOf a ++ atomFields r

end

/-- Recursion of `dedupKeepFirst`, bounded by `fuel` (always sufficient
at the call site). -/
def dedupKeepFirstGo (fuel : Nat) : List String → List String
  | [] => []
  | x :: r =>
    match fuel with
    | 0 => []
    | fuel + 1 => x :: dedupKeepFirstGo fuel (r.filter (fun y => y ≠ x))

/-- Remove duplicates, keeping the first occurrence of each name. -/
def dedupKeepFirst (l : List String) : List String :=
  dedupKeepFirstGo l.length l

/-- The capture dict before matching: every referenced field maps to
`none`. -/
def initCaps (atoms : List Atom) : Caps :=
  (dedupKeepFirst (atomFields atoms)).map (fun f => (f, (none : Option String)))

/-- Bind a capture group (the group exists in every reachable call). -/
def setCap : Caps → String → String → Caps
  | [], _, _ => []
  | (k, old) :: r, f, v =>
    if k = f then (k, some v) :: r else (k, old) :: setCap r f v

/-- The backtracking matcher: Python-regex leftmost matching of the atom
sequence against the input, greedy quantifiers with backtracking, optional
groups tried present-first.  Returns the captures and the unconsumed
suffix of the first (leftmost-greedy) match.  `fuel` strictly exceeds the
atom size on every reachable call, so the `0` case is never taken. -/
def pyMatchSeq (fuel : Nat) (atoms : List Atom) (cs : List Char) (caps : Caps) :
    Option (Caps × List Char) :=
  match fuel with
  | 0 => none
  | fuel + 1 =>
    match atoms with
    | [] => some (caps, cs)
    | .lit c :: rest =>
      match cs with
      | [] => none
      | c' :: cs' => if c = c' then pyMatchSeq fuel rest cs' caps else none
    | .part tok :: rest =>
      (partCands tok cs).findSome? (fun cand =>
        pyMatchSeq fuel rest cand.2
          (match alookup tok PATTERN_PART_FIELDS with
           | some f => setCap caps f cand.1
           | none => caps))
    | .opt g :: rest =>
      match pyMatchSeq fuel (g ++ rest) cs caps with
      | some r => some r
      | none => pyMatchSeq fuel rest cs caps

/-- `pattern.regexp.match(version_str)`: run the matcher from the start of
the input with fresh captures. -/
def pyMatch (atoms : List Atom) (cs : List Char) : Option (Caps × List Char) :=
  pyMatchSeq (asizeList atoms + 1) atoms cs (initCaps atoms)

/-! ## Parsing matched field values (`parse_field_values_to_*`) -/

/-- Recursion of `doyToDate` over the remaining months. -/
def doyToDateGo (fuel year m rem : Nat) : Date :=
  match fuel with
  | 0 => ⟨year, 12, rem⟩
  | fuel + 1 =>
    if 12 ≤ m then ⟨year, 12, rem⟩
    else if rem ≤ daysInMonth year m then ⟨year, m, rem⟩
    else doyToDateGo fuel year (m + 1) (rem - daysInMonth year m)

/-- Convert a (1-based) day-of-year into `(month, day)` starting the scan
at month `m`; helper for `date_from_doy`. -/
def doyToDate (year m rem : Nat) : Date :=
  doyToDateGo 12 year m rem

/-- `version.date_from_doy` (modelled from the spec: reconstruct the date
via day-of-year arithmetic, failing with `InvalidDateError` when the
fields do not correspond to a real calendar date, e.g. day-of-year 366 in
a non-leap year). -/
def date_from_doy (year doy : Nat) : Except Err Date :=
  if doy = 0 || daysInYear year < doy then
    .error (.invalidDate "invalid day of year")
  else
    .ok (doyToDate year 1 doy)

/-- `int(fvals[k]) if k in fvals else None`: absent key gives `None`, a
key captured by no group gives `TypeError` (Python `int(None)`). -/
def intOfKey (k : String) (fvals : Caps) : Except Err (Option Nat) :=
  match alookup k fvals with
  | none => .ok none
  | some none => .error (.typeError "int() argument must not be None")
  | some (some s) => .ok (some (strToNat s))

/-- `int(fvals.get(k) or d)`: missing or unmatched keys fall back to `d`. -/
def intOfKeyOr (d : Nat) (k : String) (fvals : Caps) : Nat :=
  match alookup k fvals with
  | some (some s) => strToNat s
  | _ => d

/-- `fvals.get(k) or ""` for the string-valued keys. -/
def strOfKey (k : String) (fvals : Caps) : String :=
  match alookup k fvals with
  | some (some s) => s
  | _ => ""

/-- Python truthiness of an optional int (`None` and `0` are falsy). -/
def truthy (v : Option Nat) : Bool :=
  match v with
  | some n => n ≠ 0
  | none => false

/-- `v2version.parse_field_values_to_cinfo`: normalize the captured
calendar fields; a complete date (from year+doy or year+month+dom) is
authoritative and re-derives all nine fields. -/
def parse_field_values_to_cinfo (fvals : Caps) : Except Err V2CalendarInfo := do
  let year_y0 ← intOfKey "year_y" fvals
  let year_g0 ← intOfKey "year_g" fvals
  let year_y := year_y0.map (fun y => if y < 1000 then y + 2000 else y)
  let year_g := year_g0.map (fun g => if g < 1000 then g + 2000 else g)
  let month0 ← intOfKey "month" fvals
  let doy0 ← intOfKey "doy" fvals
  let dom0 ← intOfKey "dom" fvals
  let week_w ← intOfKey "week_w" fvals
  let week_u ← intOfKey "week_u" fvals
  let week_v ← intOfKey "week_v" fvals
  let step1 : Except Err (Option Date × Option Nat × Option Nat) :=
    if truthy year_y && truthy doy0 then do
      let date ← date_from_doy (year_y.getD 0) (doy0.getD 0)
      .ok (some date, some date.month, some date.day)
    else
      .ok (none, month0, dom0)
  let (dateA, month1, dom1) ← step1
  let step2 : Except Err (Option Date) :=
    if truthy year_y && truthy month1 && truthy dom1 then
      if isValidDate (year_y.getD 0) (month1.getD 0) (dom1.getD 0) then
        .ok (some ⟨year_y.getD 0, month1.getD 0, dom1.getD 0⟩)
      else
        .error (.invalidDate "day is out of range for month")
    else
      .ok dateA
  let date ← step2
  let base : V2CalendarInfo := match date with
    | some d => cal_info d
    | none =>
      { year_y := year_y, year_g := year_g, quarter := none,
        month := month1, dom := dom1, doy := doy0,
        week_w := week_w, week_u := week_u, week_v := week_v }
  let quarter0 ← intOfKey "quarter" fvals
  let quarter := match quarter0 with
    | some q => some q
    | none =>
      if truthy base.month then some (quarter_from_month (base.month.getD 0))
      else none
  .ok { base with quarter := quarter }

/-- `v2version.parse_field_values_to_vinfo`: the full normalized
VersionInfo from the captured groups. -/
def parse_field_values_to_vinfo (fvals : Caps) : Except Err V2VersionInfo := do
  let cinfo ← parse_field_values_to_cinfo fvals
  let tag0 := strOfKey "tag" fvals
  let pytag0 := strOfKey "pytag" fvals
  let (tag1, pytag1) :=
    if tag0 ≠ "" && pytag0 = "" then
      (tag0, (alookup tag0 PEP440_TAG_BY_RELEASE).getD "")
    else if pytag0 ≠ "" && tag0 = "" then
      ((alookup pytag0 RELEASE_BY_PEP440_TAG).getD "", pytag0)
    else (tag0, pytag0)
  let tag := if tag1 = "" then "final" else tag1
  let bid : Option String :=
    match alookup "bid" fvals with
    | some v => v
    | none => some "1000"
  .ok { year_y := cinfo.year_y, year_g := cinfo.year_g,
        quarter := cinfo.quarter, month := cinfo.month,
        dom := cinfo.dom, doy := cinfo.doy,
        week_w := cinfo.week_w, week_u := cinfo.week_u,
        week_v := cinfo.week_v,
        major := intOfKeyOr 0 "major" fvals,
        minor := intOfKeyOr 0 "minor" fvals,
        patch := intOfKeyOr 0 "patch" fvals,
        num := intOfKeyOr 0 "num" fvals,
        bid := bid, tag := tag, pytag := pytag1,
        inc0 := intOfKeyOr 0 "inc0" fvals,
        inc1 := intOfKeyOr 1 "inc1" fvals }

/-- `v2version.parse_version_info`: compile the pattern, match the version
string from its start, reject a missing or incomplete match with
`PatternError`, and normalize the captured groups. -/
def parse_version_info (version_str raw_pattern : String) :
    Except Err V2VersionInfo := do
  let atoms ← compile_pattern raw_pattern
  match pyMatch atoms version_str.data with
  | none => .error (.patternError "Invalid version string for pattern")
  | some (caps, rest) =>
    if rest.length ≠ 0 then
      .error (.patternError "Incomplete match for version string")
    else
      parse_field_values_to_vinfo caps

/-- `v2version.is_valid`: `True`/`False` via catching `PatternError` only;
any other exception (as in the Python code) propagates. -/
def is_valid (version_str raw_pattern : String) : Except Err Bool :=
  match parse_version_info version_str raw_pattern with
  | .ok _ => .ok true
  | .error (.patternError _) => .ok false
  | .error e => .error e

/-! ## Formatting (`_format_part_values`, `_format_segment*`, `format_version`) -/

/-- The value `_format_part_values` reads for a field (`None` fields are
skipped). -/
def fieldFmtVal (field : String) (v : V2VersionInfo) : Option FVal :=
  match field with
  | "year_y" => v.year_y.map .n
  | "year_g" => v.year_g.map .n
  | "quarter" => v.quarter.map .n
  | "month" => v.month.map .n
  | "dom" => v.dom.map .n
  | "doy" => v.doy.map .n
  | "week_w" => v.week_w.map .n
  | "week_u" => v.week_u.map .n
  | "week_v" => v.week_v.map .n
  | "major" => some (.n v.major)
  | "minor" => some (.n v.minor)
  | "patch" => some (.n v.patch)
  | "num" => some (.n v.num)
  | "bid" => v.bid.map .s
  | "tag" => some (.s v.tag)
  | "pytag" => some (.s v.pytag)
  | "inc0" => some (.n v.inc0)
  | "inc1" => some (.n v.inc1)
  | _ => none

/-- `v2patterns.PART_FORMATS` (modelled from the spec: zero padding for
the `0`-prefixed parts, two-digit year truncation for `YY`/`0Y`/`GG`/`0G`,
plain decimal for the rest; `BUILD` renders the build id verbatim, `BLD`
strips its leading zeros; `RELEASE`/`PYTAG` render the tag strings). -/
def fmtPart (part : String) (x : FVal) : String :=
  match part, x with
  | "YYYY", .n y => natToStr y
  | "YY", .n y => natToStr (y % 100)
  | "0Y", .n y => padNat 2 (y % 100)
  | "GGGG", .n g => natToStr g
  | "GG", .n g => natToStr (g % 100)
  | "0G", .n g => padNat 2 (g % 100)
  | "MM", .n m => natToStr m
  | "0M", .n m => padNat 2 m
  | "DD", .n d => natToStr d
  | "0D", .n d => padNat 2 d
  | "JJJ", .n j => natToStr j
  | "00J", .n j => padNat 3 j
  | "WW", .n w => natToStr w
  | "0W", .n w => padNat 2 w
  | "UU", .n w => natToStr w
  | "0U", .n w => padNat 2 w
  | "VV", .n w => natToStr w
  | "0V", .n w => padNat 2 w
  | "MAJOR", .n x => natToStr x
  | "MINOR", .n x => natToStr x
  | "PATCH", .n x => natToStr x
  | "NUM", .n x => natToStr x
  | "BUILD", .s b => b
  | "BLD", .s b => natToStr (strToNat b)
  | "RELEASE", .s t => t
  | "PYTAG", .s t => t
  | _, _ => ""

/-- Stable sort of `(part, value)` pairs by part-token length, descending
(Python `sorted(kwargs.items(), key=lambda item: -len(item[0]))`). -/
def sortPartsDesc (l : List (String × String)) : List (String × String) :=
  (((List.range 8).reverse).map
    (fun n => l.filter (fun pv => pv.1.length = n))).flatten

/-- `v2version._format_part_values`: rendered text for every part whose
bound field is present, longest tokens first. -/
def format_part_values (vinfo : V2VersionInfo) : List (String × String) :=
  sortPartsDesc (PATTERN_PART_FIELDS.filterMap
    (fun pf => (fieldFmtVal pf.2 vinfo).map (fun x => (pf.1, fmtPart pf.1 x))))

/-- `v2version.FormatedSeg`. -/
structure FormatedSeg where
  is_literal : Bool
  is_zero : Bool
  result : String
deriving DecidableEq

/-- `v2version._format_segment`: substitute every part token occurring in
the segment (in the given order) after unescaping literal brackets, and
classify the segment as literal (no parts), zero (all parts zero-valued)
or non-zero. -/
def format_segment (seg : String) (part_values : List (String × String)) :
    FormatedSeg :=
  let used_parts := part_values.filter (fun pv => strContains seg pv.1)
  let zero_count := (used_parts.filter (fun pv => is_zero_val pv.1 pv.2)).length
  let unescaped := strReplace (strReplace seg "\\[" "[") "\\]" "]"
  let result := used_parts.foldl (fun acc pv => strReplace acc pv.1 pv.2) unescaped
  if used_parts.length = 0 then ⟨true, false, result⟩
  else if 0 < zero_count && zero_count = used_parts.length then ⟨false, true, result⟩
  else ⟨false, false, result⟩

/-- Aggregation step of `_format_segment_tree` over the formatted
children: the subtree is zero iff every non-literal child is zero; a zero
subtree renders as the empty string, otherwise all child results are
concatenated. -/
def aggregateSegs (children : List FormatedSeg) : FormatedSeg :=
  let is_zero := children.foldl
    (fun z fs => if fs.is_literal then z else z && fs.is_zero) true
  ⟨false, is_zero,
   if is_zero then "" else String.join (children.map (·.result))⟩

mutual

/-- The `FormatedSeg` of one segment-tree child: leaf segments through
`_format_segment`, nested groups through the recursive tree walk. -/
def formatNode : SegNode → List (String × String) → FormatedSeg
  | .seg s, pv => format_segment s pv
  | .sub t, pv => aggregateSegs (formatList t pv)

/-- The formatted children of one subtree, in order. -/
def formatList : List SegNode → List (String × String) → List FormatedSeg
  | [], _ => []
  | n :: r, pv => formatNode n pv :: formatList r pv

end

/-- `v2version._format_segment_tree`. -/
def format_segment_tree (segtree : List SegNode)
    (part_values : List (String × String)) : FormatedSeg :=
  aggregateSegs (formatList segtree part_values)

/-- `v2version.format_version`: render a VersionInfo under a raw pattern. -/
def format_version (vinfo : V2VersionInfo) (raw_pattern : String) :
    Except Err String :=
  (parse_segtree raw_pattern).map (fun segtree =>
    (format_segment_tree segtree (format_part_values vinfo)).result)

/-! ## The increment algorithm (`_incr_numeric`, `is_valid_week_pattern`,
`incr`) -/

/-- Python `key in reset_fields` for the reset dict. -/
def hasResetKey (reset_fields : List (String × FVal)) (k : String) : Bool :=
  reset_fields.any (fun fx => fx.1 = k)

/-- The version info `_incr_numeric` works from after applying the reset
cascade and before any bump: `cur_kwargs.update(reset_fields)`. -/
def resetBase (fields : List String) (old_vinfo cur_vinfo : V2VersionInfo) :
    V2VersionInfo :=
  applyResets (iter_reset_field_items fields old_vinfo cur_vinfo) cur_vinfo

/-- Build-id normalization: values below 1000 are raised by adding 1000
before incrementing (prevents truncation of leading zeros). -/
def normBid (b : String) : String :=
  if strToNat b < 1000 then natToStr (strToNat b + 1000) else b

/-- `_incr_numeric` step: advance the build id through the external
monotonic generator after normalization. -/
def stepBid (b : String) (v : V2VersionInfo) : V2VersionInfo :=
  { v with bid := some (lexid_next_id (normBid b)) }

/-- `_incr_numeric` step: reset or advance the 0-based counter. -/
def stepInc0 (reset_fields : List (String × FVal)) (v : V2VersionInfo) :
    V2VersionInfo :=
  if hasResetKey reset_fields "inc0" then { v with inc0 := 0 }
  else { v with inc0 := v.inc0 + 1 }

/-- `_incr_numeric` step: reset or advance the 1-based counter. -/
def stepInc1 (reset_fields : List (String × FVal)) (v : V2VersionInfo) :
    V2VersionInfo :=
  if hasResetKey reset_fields "inc1" then { v with inc1 := 1 }
  else { v with inc1 := v.inc1 + 1 }

/-- `_incr_numeric` step: requested major bump (unless reset), zeroing
minor and patch. -/
def stepMajor (major : Bool) (reset_fields : List (String × FVal))
    (v : V2VersionInfo) : V2VersionInfo :=
  if major && !hasResetKey reset_fields "major" then
    { v with major := v.major + 1, minor := 0, patch := 0 }
  else v

/-- `_incr_numeric` step: requested minor bump (unless reset), zeroing
patch. -/
def stepMinor (minor : Bool) (reset_fields : List (String × FVal))
    (v : V2VersionInfo) : V2VersionInfo :=
  if minor && !hasResetKey reset_fields "minor" then
    { v with minor := v.minor + 1, patch := 0 }
  else v

/-- `_incr_numeric` step: requested patch bump (unless reset). -/
def stepPatch (patch : Bool) (reset_fields : List (String × FVal))
    (v : V2VersionInfo) : V2VersionInfo :=
  if patch && !hasResetKey reset_fields "patch" then
    { v with patch := v.patch + 1 }
  else v

/-- `_incr_numeric` step: requested release-number bump.  (The key
`release_num` is never a reset-dict key — the dict is keyed by VersionInfo
field names — so the guard is vacuous, as in the source.) -/
def stepReleaseNum (release_num : Bool) (reset_fields : List (String × FVal))
    (v : V2VersionInfo) : V2VersionInfo :=
  if release_num && !hasResetKey reset_fields "release_num" then
    { v with num := v.num + 1 }
  else v

/-- `_incr_numeric` step: requested tag assignment (unless the tag was
reset); a tag different from the current one restarts `num` at 0.  The
`pytag` field is not updated, as in the source. -/
def stepTag (tag : Option String) (reset_fields : List (String × FVal))
    (v : V2VersionInfo) : V2VersionInfo :=
  match tag with
  | some t =>
    if t ≠ "" && !hasResetKey reset_fields "tag" then
      let v' := if t ≠ v.tag then { v with num := 0 } else v
      { v' with tag := t }
    else v
  | none => v

/-- `v2version._incr_numeric`: apply the reset cascade, normalize and
advance the build id, advance the increment counters, then apply the
requested bumps (skipped for fields that were reset), and finally the
requested release tag.  Each `cur_vinfo = cur_vinfo._replace(...)`
reassignment of the source is one named step, applied in source order. -/
def incr_numeric (raw_pattern : String) (old_vinfo cur_vinfo : V2VersionInfo)
    (major minor patch : Bool) (tag : Option String) (release_num : Bool) :
    Except Err V2VersionInfo := do
  let fields ← parse_pattern_fields raw_pattern
  let reset_fields := iter_reset_field_items fields old_vinfo cur_vinfo
  let v0 := resetBase fields old_vinfo cur_vinfo
  match v0.bid with
  | none => .error (.typeError "int() argument must not be None")
  | some b =>
    .ok (stepTag tag reset_fields
          (stepReleaseNum release_num reset_fields
            (stepPatch patch reset_fields
              (stepMinor minor reset_fields
                (stepMajor major reset_fields
                  (stepInc1 reset_fields
                    (stepInc0 reset_fields
                      (stepBid b v0))))))))

/-- `v2version.is_valid_week_pattern`: reject patterns mixing a
Gregorian-year token with an ISO-week token, or an ISO-year token with a
non-ISO-week token. -/
def is_valid_week_pattern (raw_pattern : String) : Bool :=
  let has_yy_part := ["YYYY", "YY", "0Y"].any (fun p => strContains raw_pattern p)
  let has_ww_part := ["WW", "0W", "UU", "0U"].any (fun p => strContains raw_pattern p)
  let has_gg_part := ["GGGG", "GG", "0G"].any (fun p => strContains raw_pattern p)
  let has_vv_part := ["VV", "0V"].any (fun p => strContains raw_pattern p)
  if has_yy_part && has_vv_part then false
  else if has_gg_part && has_ww_part then false
  else true

/-- Replace the nine calendar fields
(`old_vinfo._replace(**cur_cinfo._asdict())`). -/
def replaceCal (v : V2VersionInfo) (c : V2CalendarInfo) : V2VersionInfo :=
  { v with year_y := c.year_y, year_g := c.year_g, quarter := c.quarter,
           month := c.month, dom := c.dom, doy := c.doy,
           week_w := c.week_w, week_u := c.week_u, week_v := c.week_v }

/-- `v2version.incr`: the state-transition function.  `today` stands for
the environment's current-date provider (`version.TODAY`), used when no
explicit `date` is given and the date is not pinned.  `.ok none` is the
Python `None` result; `.error e` is an exception propagating to the
caller (only `PatternError` from parsing is caught). -/
def incr (old_version raw_pattern : String) (tag : Option String)
    (major minor patch release_num pin_date : Bool)
    (date : Option Date) (today : Date) : Except Err (Option String) :=
  if !is_valid_week_pattern raw_pattern then .ok none
  else
    match parse_version_info old_version raw_pattern with
    | .error (.patternError _) => .ok none
    | .error e => .error e
    | .ok old_vinfo =>
      let cur_cinfo :=
        if pin_date then ver_to_cal_info old_vinfo else cal_info (date.getD today)
      let cur_vinfo0 :=
        if is_cal_gt (ver_to_cal_info old_vinfo) cur_cinfo then old_vinfo
        else replaceCal old_vinfo cur_cinfo
      do
        let cur_vinfo1 ←
          incr_numeric raw_pattern old_vinfo cur_vinfo0 major minor patch tag release_num
        let new_version ← format_version cur_vinfo1 raw_pattern
        if new_version = old_version then .ok none else .ok (some new_version)

/-! ## Claim-side definitions

The following definitions restate conditions in the words of the
specification claims (not of the code); the theorems below compare them
with the code-side definitions above. -/

/-- Claim side of C3: "every non-null calendar field of the old version is
greater-or-equal the corresponding field of the candidate", one field at a
time. -/
def geOptB (l r : Option Nat) : Bool :=
  match l, r with
  | some lv, some rv => rv ≤ lv
  | _, _ => true

/-- Claim side of C3: the component-wise comparison over only the calendar
fields present in both sides. -/
def calGeComponentwise (left right : V2CalendarInfo) : Bool :=
  geOptB left.year_y right.year_y && geOptB left.year_g right.year_g &&
  geOptB left.quarter right.quarter && geOptB left.month right.month &&
  geOptB left.dom right.dom && geOptB left.doy right.doy &&
  geOptB left.week_w right.week_w && geOptB left.week_u right.week_u &&
  geOptB left.week_v right.week_v

/-- Lexicographic "strictly greater" on a list of value pairs: at some
position the left value exceeds the right one and every earlier position
ties.  (The amended reading of the future-date guard.) -/
def pairsLexGt (ps : List (Nat × Nat)) : Prop :=
  ∃ i p, ps.get? i = some p ∧ p.2 < p.1 ∧
    ∀ j q, j < i → ps.get? j = some q → q.1 = q.2

/-- Claim side of C8: the pattern mixes a Gregorian-year token with an
ISO-week token, or an ISO-year token with a non-ISO-week token. -/
def specWeekMixRejected (p : String) : Prop :=
  ((∃ t ∈ ["YYYY", "YY", "0Y"], strContains p t) ∧
   (∃ t ∈ ["VV", "0V"], strContains p t)) ∨
  ((∃ t ∈ ["GGGG", "GG", "0G"], strContains p t) ∧
   (∃ t ∈ ["WW", "0W", "UU", "0U"], strContains p t))

mutual

/-- Claim side of C4 (amended): one child is all-zero when it is a leaf
segment that is literal or renders all-zero, or a nested group that is
recursively all-zero. -/
def nodeAllZero : SegNode → List (String × String) → Bool
  | .seg s, pv =>
    (format_segment s pv).is_literal || (format_segment s pv).is_zero
  | .sub t, pv => listAllZero t pv

/-- Claim side of C4 (amended): every child is all-zero. -/
def listAllZero : List SegNode → List (String × String) → Bool
  | [], _ => true
  | n :: r, pv => nodeAllZero n pv && listAllZero r pv

end

/-- Claim side of C4 (amended): a subtree is all-zero when each leaf
segment with parts renders all-zero and each nested group is recursively
all-zero (literal segments are irrelevant). -/
def treeAllZero (segtree : List SegNode) (pv : List (String × String)) : Bool :=
  listAllZero segtree pv

mutual

/-- Claim side of C4 (amended): the text one child contributes to its
non-elided parent: a leaf segment always contributes its substituted text
(zero-valued ones included); a nested group contributes the empty string
exactly when it is all-zero on its own, independent of its siblings. -/
def renderNode : SegNode → List (String × String) → String
  | .seg s, pv => (format_segment s pv).result
  | .sub t, pv =>
    if listAllZero t pv then "" else String.join (renderList t pv)

/-- Claim side of C4 (amended): the texts a non-elided group concatenates,
one per child. -/
def renderList : List SegNode → List (String × String) → List String
  | [], _ => []
  | n :: r, pv => renderNode n pv :: renderList r pv

end

/-- Claim side of C4 (amended), at the tree level. -/
def renderChildren (segtree : List SegNode) (pv : List (String × String)) :
    List String :=
  renderList segtree pv

/-- All characters of a string are decimal digits. -/
def allDigits (s : String) : Bool :=
  s.data.all isDig

/-- Decidable equality of `Except` results, so concrete runs of the
embedded functions can be checked by `decide`. -/
instance {ε α : Type} [DecidableEq ε] [DecidableEq α] :
    DecidableEq (Except ε α) := fun x y =>
  match x, y with
  | .ok a, .ok b =>
    if h : a = b then isTrue (congrArg _ h)
    else isFalse (fun he => h (Except.ok.inj he))
  | .error a, .error b =>
    if h : a = b then isTrue (congrArg _ h)
    else isFalse (fun he => h (Except.error.inj he))
  | .ok _, .error _ => isFalse (fun he => Except.noConfusion he)
  | .error _, .ok _ => isFalse (fun he => Except.noConfusion he)

mutual

/-- Size of a segment-tree node (induction measure). -/
def snSize : SegNode → Nat
  | .seg _ => 1
  | .sub t => 1 + snListSize t

/-- Size of a segment-tree node list (induction measure). -/
def snListSize : List SegNode → Nat
  | [] => 0
  | n :: r => snSize n + snListSize r

end

/-- A VersionInfo whose populated fields are exactly the ones the default
pattern `vYYYY0M.BUILD[-RELEASE]` references (plus the derived quarter and
the always-present numeric counters, which that pattern does not render):
the shape `parse_version_info` itself produces for such patterns. -/
def mkV (y q m mj mi pa nu : Nat) (b tag pytag : String) (i0 i1 : Nat) :
    V2VersionInfo :=
  { year_y := some y, year_g := none, quarter := some q, month := some m,
    dom := none, doy := none, week_w := none, week_u := none, week_v := none,
    major := mj, minor := mi, patch := pa, num := nu,
    bid := some b, tag := tag, pytag := pytag, inc0 := i0, inc1 := i1 }

/-! ## Helper lemmas -/

/-- Unfolding of a successful `incr` run from its intermediate results:
once the parse, the numeric increment and the rendering are known, `incr`
returns the rendered string unless it is verbatim the old version. -/
theorem incr_steps (old_version raw_pattern : String) (tag : Option String)
    (major minor patch release_num pin_date : Bool) (date : Option Date)
    (today : Date) (ov cv : V2VersionInfo) (nv : String)
    (hweek : is_valid_week_pattern raw_pattern = true)
    (hparse : parse_version_info old_version raw_pattern = .ok ov)
    (hnum : incr_numeric raw_pattern ov
        (if is_cal_gt (ver_to_cal_info ov)
            (if pin_date then ver_to_cal_info ov else cal_info (date.getD today))
         then ov
         else replaceCal ov
            (if pin_date then ver_to_cal_info ov else cal_info (date.getD today)))
        major minor patch tag release_num = .ok cv)
    (hfmt : format_version cv raw_pattern = .ok nv) :
    incr old_version raw_pattern tag major minor patch release_num pin_date date today
      = if nv = old_version then .ok none else .ok (some nv) := by
  unfold incr
  rw [hweek, hparse]
  simp only [Bool.not_true, hnum, hfmt, Bool.false_eq_true, if_false, Bind.bind,
    Except.bind]

/-! ## C9: the concrete parse/format chain -/

/-- C9, counterexample: parsing `v201712.0033-beta` under
`vYYYY0M.BUILD[-RELEASE]` and re-rendering under `vYY.BLD[-PYTAGNUM]` does
not yield `v7.33-b0` (the parsed year is 2017, and the `YY` part renders
2017 as `17`, not `7`). -/
theorem C9_chain_not_v7 :
    ((parse_version_info "v201712.0033-beta" "vYYYY0M.BUILD[-RELEASE]").bind
      (fun v => format_version v "vYY.BLD[-PYTAGNUM]")) ≠ .ok "v7.33-b0" := by
  decide

/-- C9, amended: the chain yields exactly `v17.33-b0`. -/
theorem C9_chain_value :
    ((parse_version_info "v201712.0033-beta" "vYYYY0M.BUILD[-RELEASE]").bind
      (fun v => format_version v "vYY.BLD[-PYTAGNUM]")) = .ok "v17.33-b0" := by
  decide

/-! ## C4: elision of optional groups -/

/-- C4, counterexample: under `vMAJOR[.MINOR][.PATCH]` with
`major = 1, minor = 0, patch = 5`, the all-zero group `[.MINOR]` is elided
even though the group `[.PATCH]` to its right renders non-zero: the result
is `v1.5`, not the `v1.0.5` the claim's right-to-left retention rule would
require. -/
theorem C4_sibling_group_elided :
    format_version
        ⟨none, none, none, none, none, none, none, none, none,
         1, 0, 5, 0, some "1000", "final", "", 0, 1⟩
        "vMAJOR[.MINOR][.PATCH]" = .ok "v1.5" ∧
    format_version
        ⟨none, none, none, none, none, none, none, none, none,
         1, 0, 5, 0, some "1000", "final", "", 0, 1⟩
        "vMAJOR[.MINOR][.PATCH]" ≠ .ok "v1.0.5" := by
  exact ⟨by decide, by decide⟩

/-! ## C5: error behavior of `incr` -/

/-- C5, counterexample: a version string that matches the pattern but
denotes an invalid calendar date (February 30) raises through `incr`: the
`datetime.date` construction inside `parse_field_values_to_cinfo` fails
with a `ValueError`/`InvalidDateError`, which `incr` does not catch
(it only catches `PatternError`), so `incr` does not return `None`. -/
theorem C5_invalid_date_raises :
    incr "2021.02.30" "YYYY.0M.0D" none false false false false false none
        ⟨2021, 3, 3⟩
      = .error (.invalidDate "day is out of range for month") := by
  decide

/-- C5, amended: for the claim's enumerated expected-invalid inputs the
transition is reported as a value: a week/year-inconsistent pattern, and a
version string whose parse fails with `PatternError` (match failure,
incomplete match, or a pattern whose brackets do not compile), both make
`incr` return `None` without raising. -/
theorem C5_expected_invalid_returns_none (old_version raw_pattern : String)
    (tag : Option String) (major minor patch release_num pin_date : Bool)
    (date : Option Date) (today : Date) :
    (is_valid_week_pattern raw_pattern = false →
      incr old_version raw_pattern tag major minor patch release_num pin_date
        date today = .ok none) ∧
    (∀ m, parse_version_info old_version raw_pattern = .error (.patternError m) →
      incr old_version raw_pattern tag major minor patch release_num pin_date
        date today = .ok none) := by
  constructor
  · intro hweek
    unfold incr
    rw [hweek]
    simp
  · intro m hparse
    unfold incr
    by_cases hweek : is_valid_week_pattern raw_pattern
    · rw [hweek, hparse]
      simp
    · simp only [Bool.not_eq_true] at hweek
      rw [hweek]
      simp

/-- C5, witness: a week-mixing pattern and a non-matching version string
both give `None`. -/
theorem C5_witness :
    incr "2021.01" "YYYY.VV" none false false false false false none
        ⟨2021, 3, 3⟩ = .ok none ∧
    incr "x" "MAJOR" none false false false false false none
        ⟨2021, 3, 3⟩ = .ok none := by
  exact ⟨(C5_expected_invalid_returns_none "2021.01" "YYYY.VV" none false false
            false false false none ⟨2021, 3, 3⟩).1 (by decide),
         (C5_expected_invalid_returns_none "x" "MAJOR" none false false
            false false false none ⟨2021, 3, 3⟩).2
            "Invalid version string for pattern" (by decide)⟩

/-- Inversion of a successful `Except.bind`. -/
theorem except_bind_eq_ok {ε α β : Type} {a : Except ε α} {f : α → Except ε β}
    {y : β} (h : a.bind f = .ok y) : ∃ x, a = .ok x ∧ f x = .ok y := by
  cases a with
  | error e => simp [Except.bind] at h
  | ok x => exact ⟨x, rfl, h⟩

/-! ## C7: the "nothing changed" guard -/

/-- C7, counterexample: `incr` with all bump flags false and
`pin_date = true` on `v201712.0033` under a pattern with a build id does
not return `None`: the build id advances unconditionally
(`0033 -> 1034`), so a new version is produced. -/
theorem C7_pin_date_still_advances :
    incr "v201712.0033" "vYYYY0M.BUILD" none false false false false true
        none ⟨2020, 1, 1⟩ = .ok (some "v201712.1034") ∧
    incr "v201712.0033" "vYYYY0M.BUILD" none false false false false true
        none ⟨2020, 1, 1⟩ ≠ .ok none := by
  have h := incr_steps "v201712.0033" "vYYYY0M.BUILD" none false false false
    false true none ⟨2020, 1, 1⟩
    ⟨some 2017, none, some 4, some 12, none, none, none, none, none,
     0, 0, 0, 0, some "0033", "final", "", 0, 1⟩
    ⟨some 2017, none, some 4, some 12, none, none, none, none, none,
     0, 0, 0, 0, some "1034", "final", "", 1, 2⟩
    "v201712.1034" (by decide) (by decide) (by decide) (by decide)
  have h2 : incr "v201712.0033" "vYYYY0M.BUILD" none false false false false
      true none ⟨2020, 1, 1⟩ = .ok (some "v201712.1034") :=
    h.trans (by decide)
  exact ⟨h2, by rw [h2]; decide⟩

/-- C7, amended: a successfully produced version string never equals the
old version verbatim — when the rendered string is the old string, `incr`
returns `None` instead.  (The "all flags false with `pin_date` gives
`None`" part of the claim only survives for patterns that render neither
the build id nor the increment counters, e.g. `vMAJOR.MINOR.PATCH`.) -/
theorem C7_no_verbatim_result (old_version raw_pattern : String)
    (tag : Option String) (major minor patch release_num pin_date : Bool)
    (date : Option Date) (today : Date) (s : String)
    (h : incr old_version raw_pattern tag major minor patch release_num
      pin_date date today = .ok (some s)) :
    s ≠ old_version := by
  unfold incr at h
  by_cases hweek : is_valid_week_pattern raw_pattern
  · rw [hweek] at h
    simp only [Bool.not_true, Bool.false_eq_true, if_false] at h
    rcases hp : parse_version_info old_version raw_pattern with e | ov
    · rw [hp] at h
      rcases e with m | m | m | m <;> simp_all
    · rw [hp] at h
      simp only [Bind.bind] at h
      obtain ⟨cv, hn, h⟩ := except_bind_eq_ok h
      obtain ⟨nv, hf, h⟩ := except_bind_eq_ok h
      by_cases hno : nv = old_version
      · rw [if_pos hno] at h
        simp at h
      · rw [if_neg hno] at h
        simp only [Except.ok.injEq, Option.some.injEq] at h
        rw [← h]
        exact hno
  · simp only [Bool.not_eq_true] at hweek
    rw [hweek] at h
    simp at h

/-- C7, witness for the amended theorem: a concrete successful bump whose
result differs from the input. -/
theorem C7_no_verbatim_result_witness :
    incr "1" "MAJOR" none true false false false true none ⟨2020, 1, 1⟩
      = .ok (some "2") ∧ ("2" : String) ≠ "1" := by
  have h : incr "1" "MAJOR" none true false false false true none ⟨2020, 1, 1⟩
      = .ok (some "2") := by
    have h0 := incr_steps "1" "MAJOR" none true false false false true none
      ⟨2020, 1, 1⟩
      ⟨none, none, none, none, none, none, none, none, none,
       1, 0, 0, 0, some "1000", "final", "", 0, 1⟩
      ⟨none, none, none, none, none, none, none, none, none,
       2, 0, 0, 0, some "1001", "final", "", 1, 2⟩
      "2" (by decide) (by decide) (by decide) (by decide)
    exact h0.trans (by decide)
  exact ⟨h, C7_no_verbatim_result "1" "MAJOR" none true false false false true
    none ⟨2020, 1, 1⟩ "2" h⟩

/-! ## C8: week/year token mixing -/

/-- C8: `is_valid_week_pattern` returns false exactly on the claim's
token mixes: a Gregorian-year token (`YYYY`/`YY`/`0Y`) together with an
ISO-week token (`VV`/`0V`), or an ISO-year token (`GGGG`/`GG`/`0G`)
together with a non-ISO-week token (`WW`/`0W`/`UU`/`0U`). -/
theorem C8_week_mix_rejection (p : String) :
    is_valid_week_pattern p = false ↔ specWeekMixRejected p := by
  unfold is_valid_week_pattern specWeekMixRejected
  simp only []
  split_ifs with h1 h2 <;> simp_all [List.any_eq_true]

/-! ## C6: full-match requirement -/

/-- C6: parsing succeeds only on a full match — whenever the compiled
pattern's leftmost match leaves a non-empty rest (a proper-prefix match),
`parse_version_info` fails with `PatternError` and `is_valid` returns
false; conversely a successful parse implies the match consumed the whole
version string. -/
theorem C6_full_match_required (version_str raw_pattern : String)
    (atoms : List Atom) (caps : Caps) (rest : List Char)
    (hc : compile_pattern raw_pattern = .ok atoms)
    (hm : pyMatch atoms version_str.data = some (caps, rest)) :
    (∀ w, parse_version_info version_str raw_pattern = .ok w → rest = []) ∧
    (rest ≠ [] →
      (∃ m, parse_version_info version_str raw_pattern
        = .error (.patternError m)) ∧
      is_valid version_str raw_pattern = .ok false) := by
  have hp : parse_version_info version_str raw_pattern
      = if rest.length ≠ 0 then
          .error (.patternError "Incomplete match for version string")
        else parse_field_values_to_vinfo caps := by
    unfold parse_version_info
    rw [hc]
    simp only [Bind.bind, Except.bind]
    rw [hm]
  constructor
  · intro w hw
    by_cases hr : rest = []
    · exact hr
    · exfalso
      have hlen : rest.length ≠ 0 := by
        simpa [List.length_eq_zero] using hr
      rw [hp, if_pos hlen] at hw
      exact Except.noConfusion hw
  · intro hr
    have hlen : rest.length ≠ 0 := by
      simpa [List.length_eq_zero] using hr
    have hp2 : parse_version_info version_str raw_pattern
        = .error (.patternError "Incomplete match for version string") := by
      rw [hp, if_pos hlen]
    refine ⟨⟨_, hp2⟩, ?_⟩
    unfold is_valid
    rw [hp2]

/-- C6, witness: `1x` against `MAJOR` matches only the proper prefix `1`
and is rejected. -/
theorem C6_full_match_required_witness :
    (∃ m, parse_version_info "1x" "MAJOR" = .error (.patternError m)) ∧
    is_valid "1x" "MAJOR" = .ok false :=
  (C6_full_match_required "1x" "MAJOR" [Atom.part "MAJOR"]
    [("major", some "1")] ['x'] rfl rfl).2 (by decide)

/-! ## C3: the future-date guard -/

/-- C3, counterexample: with old version `2021.03` (year 2021, month 3)
and candidate date 2020-09-09, the guard `_is_cal_gt` fires (the value
lists compare lexicographically greater on the leading year) although the
claim's component-wise condition fails (month 3 < 9): `incr` keeps the old
calendar fields and only advances the build id. -/
theorem C3_guard_is_lexicographic :
    is_cal_gt
      (ver_to_cal_info
        ⟨some 2021, none, some 1, some 3, none, none, none, none, none,
         0, 0, 0, 0, some "1000", "final", "", 0, 1⟩)
      (cal_info ⟨2020, 9, 9⟩) = true ∧
    calGeComponentwise
      (ver_to_cal_info
        ⟨some 2021, none, some 1, some 3, none, none, none, none, none,
         0, 0, 0, 0, some "1000", "final", "", 0, 1⟩)
      (cal_info ⟨2020, 9, 9⟩) = false ∧
    parse_version_info "2021.03.1000" "YYYY.0M.BUILD" = .ok
      ⟨some 2021, none, some 1, some 3, none, none, none, none, none,
       0, 0, 0, 0, some "1000", "final", "", 0, 1⟩ ∧
    incr "2021.03.1000" "YYYY.0M.BUILD" none false false false false false
      (some ⟨2020, 9, 9⟩) ⟨2020, 1, 1⟩ = .ok (some "2021.03.1001") := by
  refine ⟨by decide, by decide, by decide, ?_⟩
  have h := incr_steps "2021.03.1000" "YYYY.0M.BUILD" none false false false
    false false (some ⟨2020, 9, 9⟩) ⟨2020, 1, 1⟩
    ⟨some 2021, none, some 1, some 3, none, none, none, none, none,
     0, 0, 0, 0, some "1000", "final", "", 0, 1⟩
    ⟨some 2021, none, some 1, some 3, none, none, none, none, none,
     0, 0, 0, 0, some "1001", "final", "", 1, 2⟩
    "2021.03.1001" (by decide) (by decide) (by decide) (by decide)
  exact h.trans (by decide)

/-- The Python list comparison `lvals > rvals` on paired values is the
lexicographic strictly-greater relation: some position wins for the left
list and all earlier positions tie. -/
theorem listGtNat_iff_pairsLexGt (ps : List (Nat × Nat)) :
    listGtNat (ps.map Prod.fst) (ps.map Prod.snd) = true ↔ pairsLexGt ps := by
  induction ps with
  | nil =>
    simp only [List.map_nil]
    constructor
    · intro h
      exact absurd h (by decide)
    · rintro ⟨i, p, hget, -, -⟩
      simp at hget
  | cons ab ps ih =>
    obtain ⟨a, b⟩ := ab
    simp only [List.map_cons, listGtNat]
    rcases Nat.lt_trichotomy b a with hab | hab | hab
    · constructor
      · intro _
        exact ⟨0, (a, b), rfl, hab, fun j q hj _ => absurd hj (Nat.not_lt_zero j)⟩
      · intro _
        simp only [decide_eq_true_eq, Bool.or_eq_true]
        left
        exact hab
    · have hstep : (decide (a > b) ||
          (decide (a = b) && listGtNat (ps.map Prod.fst) (ps.map Prod.snd)))
          = listGtNat (ps.map Prod.fst) (ps.map Prod.snd) := by
        simp [hab.symm]
      rw [hstep, ih]
      constructor
      · rintro ⟨i, p, hget, hlt, hprev⟩
        refine ⟨i + 1, p, by simpa using hget, hlt, ?_⟩
        rintro (_ | j) q hj hq
        · simp only [List.get?_cons_zero, Option.some.injEq] at hq
          rw [← hq]
          exact hab.symm
        · exact hprev j q (Nat.lt_of_succ_lt_succ hj) (by simpa using hq)
      · rintro ⟨i, p, hget, hlt, hprev⟩
        rcases i with _ | i
        · simp only [List.get?_cons_zero, Option.some.injEq] at hget
          rw [← hget] at hlt
          have hba : b < a := hlt
          omega
        · refine ⟨i, p, by simpa using hget, hlt, ?_⟩
          intro j q hj hq
          exact hprev (j + 1) q (Nat.succ_lt_succ hj) (by simpa using hq)
    · constructor
      · intro h
        have h1 : ¬ a > b := Nat.not_lt.mpr (Nat.le_of_lt hab)
        have h2 : a ≠ b := Nat.ne_of_lt hab
        simp [h1, h2] at h
      · rintro ⟨i, p, hget, hlt, hprev⟩
        rcases i with _ | i
        · simp only [List.get?_cons_zero, Option.some.injEq] at hget
          rw [← hget] at hlt
          have hba : b < a := hlt
          omega
        · have h0 := hprev 0 (a, b) (Nat.succ_pos i) rfl
          have hq : a = b := h0
          omega

/-- C3, amended: `incr` treats the old version as being from the future
exactly when the tuple of mutually non-null calendar fields of the old
version, read in field declaration order, is lexicographically greater
than the candidate's. -/
theorem C3_future_guard_lexicographic (left right : V2CalendarInfo) :
    is_cal_gt left right = true ↔ pairsLexGt (calCommonPairs left right) := by
  unfold is_cal_gt calCommonVals
  exact listGtNat_iff_pairsLexGt (calCommonPairs left right)

/-! ## C10: release-number bump versus tag change -/

/-- A successful association-list lookup is a member. -/
theorem alookup_some_mem {α : Type} {k : String} {v : α}
    {l : List (String × α)} (h : alookup k l = some v) : (k, v) ∈ l := by
  induction l with
  | nil => exact absurd h (by simp [alookup])
  | cons kv rest ih =>
    obtain ⟨k', v'⟩ := kv
    unfold alookup at h
    by_cases hk : k' = k
    · rw [if_pos hk] at h
      subst hk
      obtain rfl := Option.some.inj h
      exact List.mem_cons_self _ _
    · rw [if_neg hk] at h
      exact List.mem_cons_of_mem _ (ih h)

/-- A key resolves only to the field of that name. -/
theorem fieldOfKey_some {k : String} {fd : Fd} (h : fieldOfKey k = some fd) :
    k = keyOfFd fd := by
  have hm := alookup_some_mem h
  fin_cases hm <;> rfl

/-- A write to a field other than `tag` leaves the tag unchanged. -/
theorem setFd_tag_of_ne (fd : Fd) (x : FVal) (v : V2VersionInfo)
    (h : fd ≠ Fd.tag) : (setFd fd x v).tag = v.tag := by
  cases fd <;> first
    | (exact absurd rfl h)
    | (cases x <;> rfl)

/-- A field write under a key other than `tag` leaves the tag unchanged. -/
theorem setFieldVal_tag_of_ne (k : String) (x : FVal) (v : V2VersionInfo)
    (h : k ≠ "tag") : (setFieldVal k x v).tag = v.tag := by
  unfold setFieldVal
  cases hf : fieldOfKey k with
  | none => rfl
  | some fd =>
    have hk := fieldOfKey_some hf
    cases fd <;> first
      | (cases x <;> rfl)
      | (exact absurd hk h)

/-- The reset dict leaves the tag unchanged when `tag` is not among its
keys. -/
theorem applyResets_tag_of_no_key (items : List (String × FVal))
    (v : V2VersionInfo) (h : hasResetKey items "tag" = false) :
    (applyResets items v).tag = v.tag := by
  induction items generalizing v with
  | nil => rfl
  | cons kx rest ih =>
    simp only [hasResetKey, List.any_cons, Bool.or_eq_false_iff,
      decide_eq_false_iff_not] at h
    have step : applyResets (kx :: rest) v
        = applyResets rest (setFieldVal kx.1 kx.2 v) := rfl
    rw [step, ih (setFieldVal kx.1 kx.2 v) (by simp [hasResetKey, h.2]),
      setFieldVal_tag_of_ne kx.1 kx.2 v h.1]

/-- Each bump step before the tag step leaves the tag unchanged. -/
theorem pre_tag_steps_preserve_tag (reset_fields : List (String × FVal))
    (b : String) (major minor patch release_num : Bool) (v : V2VersionInfo) :
    (stepReleaseNum release_num reset_fields
      (stepPatch patch reset_fields
        (stepMinor minor reset_fields
          (stepMajor major reset_fields
            (stepInc1 reset_fields
              (stepInc0 reset_fields (stepBid b v))))))).tag = v.tag := by
  unfold stepReleaseNum stepPatch stepMinor stepMajor stepInc1 stepInc0 stepBid
  split <;> split <;> split <;> split <;> split <;> split <;> rfl

/-- A requested tag different from the current one sets `num` to 0. -/
theorem stepTag_num_of_change (t : String)
    (reset_fields : List (String × FVal)) (v : V2VersionInfo)
    (ht : t ≠ "") (hkey : hasResetKey reset_fields "tag" = false)
    (htv : t ≠ v.tag) : (stepTag (some t) reset_fields v).num = 0 := by
  unfold stepTag
  simp [ht, hkey, htv]

/-- C10: when `incr` requests a tag that differs from the parsed version's
current tag and the tag field was not force-reset, the resulting `num` is
exactly 0 — the release-number bump requested in the same call is
discarded by the tag-change reset.  (`cur` is the candidate `_incr_numeric`
receives; `incr` always passes it with the parsed version's tag.) -/
theorem C10_tag_change_resets_num (p : String) (old cur : V2VersionInfo)
    (fields : List String) (t : String)
    (major minor patch release_num : Bool) (w : V2VersionInfo)
    (hf : parse_pattern_fields p = .ok fields)
    (hcur : cur.tag = old.tag)
    (ht : t ≠ "")
    (hkey : hasResetKey (iter_reset_field_items fields old cur) "tag" = false)
    (htag : t ≠ old.tag)
    (hrun : incr_numeric p old cur major minor patch (some t) release_num
      = .ok w) :
    w.num = 0 := by
  unfold incr_numeric at hrun
  rw [hf] at hrun
  simp only [Bind.bind, Except.bind] at hrun
  cases hb : (resetBase fields old cur).bid with
  | none =>
    rw [hb] at hrun
    simp at hrun
  | some b =>
    rw [hb] at hrun
    simp only [Except.ok.injEq] at hrun
    have htagbase : (resetBase fields old cur).tag = old.tag := by
      rw [resetBase, applyResets_tag_of_no_key _ _ hkey, hcur]
    rw [← hrun]
    refine stepTag_num_of_change t _ _ ht hkey ?_
    rw [pre_tag_steps_preserve_tag, htagbase]
    exact htag

/-- C10, witness: requesting tag `beta` with `release_num = true` on a
`final`-tagged version yields `num = 0`. -/
theorem C10_tag_change_resets_num_witness :
    (⟨none, none, none, none, none, none, none, none, none,
      0, 0, 0, 0, some "1001", "beta", "", 1, 2⟩ : V2VersionInfo).num = 0 :=
  C10_tag_change_resets_num "MAJOR"
    ⟨none, none, none, none, none, none, none, none, none,
     0, 0, 0, 0, some "1000", "final", "", 0, 1⟩
    ⟨none, none, none, none, none, none, none, none, none,
     0, 0, 0, 0, some "1000", "final", "", 0, 1⟩
    ["major"] "beta" false false false true
    ⟨none, none, none, none, none, none, none, none, none,
     0, 0, 0, 0, some "1001", "beta", "", 1, 2⟩
    (by decide) rfl (by decide) (by decide) (by decide) (by decide)

/-! ## C2: the reset cascade -/

/-- Membership in the yielded reset items, by position: a field is yielded
with its initial value exactly when it has one and either the walk
started with `has_reset` already set, or some strictly earlier pattern
field differs between the old and the candidate version. -/
theorem iter_reset_go_mem (old cur : V2VersionInfo) (f : String) (v : FVal)
    (fields : List String) :
    ∀ hr : Bool,
    ((f, v) ∈ iter_reset_go old cur hr fields ↔
      ∃ i, fields.get? i = some f ∧
        alookup f V2_FIELD_INITIAL_VALUES = some v ∧
        (hr = true ∨ ∃ j g, j < i ∧ fields.get? j = some g ∧
          getFieldVal g old ≠ getFieldVal g cur)) := by
  induction fields with
  | nil =>
    intro hr
    simp [iter_reset_go]
  | cons hd tl ih =>
    intro hr
    have ihT := ih true
    have ihF := ih false
    simp only [eq_self_iff_true, true_or, and_true] at ihT
    simp only [Bool.false_eq_true, false_or] at ihF
    rw [iter_reset_go]
    cases hl : alookup hd V2_FIELD_INITIAL_VALUES with
    | some iv =>
      cases hr with
      | true =>
        simp only [eq_self_iff_true, true_or, and_true, if_true]
        rw [List.mem_cons, ihT]
        constructor
        · rintro (heq | ⟨k, hget, hlv⟩)
          · rw [Prod.mk.injEq] at heq
            obtain ⟨rfl, rfl⟩ := heq
            exact ⟨0, rfl, hl⟩
          · exact ⟨k + 1, by simpa using hget, hlv⟩
        · rintro ⟨i, hget, hlv⟩
          cases i with
          | zero =>
            simp only [List.get?_cons_zero, Option.some.injEq] at hget
            subst hget
            rw [hl] at hlv
            left
            rw [Option.some.inj hlv]
          | succ k =>
            right
            exact ⟨k, by simpa using hget, hlv⟩
      | false =>
        simp only [Bool.false_eq_true, false_or, if_false]
        by_cases hdiff : getFieldVal hd old ≠ getFieldVal hd cur
        · rw [if_pos hdiff, ihT]
          constructor
          · rintro ⟨k, hget, hlv⟩
            exact ⟨k + 1, by simpa using hget, hlv,
              ⟨0, hd, Nat.succ_pos k, rfl, hdiff⟩⟩
          · rintro ⟨i, hget, hlv, hcond⟩
            cases i with
            | zero =>
              obtain ⟨j, g, hj, -, -⟩ := hcond
              exact absurd hj (Nat.not_lt_zero j)
            | succ k =>
              exact ⟨k, by simpa using hget, hlv⟩
        · rw [if_neg hdiff, ihF]
          constructor
          · rintro ⟨k, hget, hlv, j, g, hj, hget2, hp⟩
            exact ⟨k + 1, by simpa using hget, hlv,
              j + 1, g, Nat.succ_lt_succ hj, by simpa using hget2, hp⟩
          · rintro ⟨i, hget, hlv, hcond⟩
            cases i with
            | zero =>
              obtain ⟨j, g, hj, -, -⟩ := hcond
              exact absurd hj (Nat.not_lt_zero j)
            | succ k =>
              obtain ⟨j, g, hj, hget2, hp⟩ := hcond
              cases j with
              | zero =>
                simp only [List.get?_cons_zero, Option.some.injEq] at hget2
                subst hget2
                exact absurd hp hdiff
              | succ j' =>
                exact ⟨k, by simpa using hget, hlv,
                  j', g, Nat.lt_of_succ_lt_succ hj, by simpa using hget2, hp⟩
    | none =>
      dsimp only
      by_cases hdiff : getFieldVal hd old ≠ getFieldVal hd cur
      · rw [if_pos hdiff, ihT]
        constructor
        · rintro ⟨k, hget, hlv⟩
          exact ⟨k + 1, by simpa using hget, hlv,
            Or.inr ⟨0, hd, Nat.succ_pos k, rfl, hdiff⟩⟩
        · rintro ⟨i, hget, hlv, -⟩
          cases i with
          | zero =>
            simp only [List.get?_cons_zero, Option.some.injEq] at hget
            subst hget
            rw [hl] at hlv
            exact absurd hlv (by simp)
          | succ k =>
            exact ⟨k, by simpa using hget, hlv⟩
      · rw [if_neg hdiff, ih hr]
        constructor
        · rintro ⟨k, hget, hlv, hcond⟩
          refine ⟨k + 1, by simpa using hget, hlv, ?_⟩
          rcases hcond with hhr | ⟨j, g, hj, hget2, hp⟩
          · exact Or.inl hhr
          · exact Or.inr ⟨j + 1, g, Nat.succ_lt_succ hj,
              by simpa using hget2, hp⟩
        · rintro ⟨i, hget, hlv, hcond⟩
          cases i with
          | zero =>
            simp only [List.get?_cons_zero, Option.some.injEq] at hget
            subst hget
            rw [hl] at hlv
            exact absurd hlv (by simp)
          | succ k =>
            refine ⟨k, by simpa using hget, hlv, ?_⟩
            rcases hcond with hhr | ⟨j, g, hj, hget2, hp⟩
            · exact Or.inl hhr
            · cases j with
              | zero =>
                simp only [List.get?_cons_zero, Option.some.injEq] at hget2
                subst hget2
                exact absurd hp hdiff
              | succ j' =>
                exact Or.inr ⟨j', g, Nat.lt_of_succ_lt_succ hj,
                  by simpa using hget2, hp⟩

/-- Writing one field does not disturb a different field. -/
theorem getFd_setFd_ne (fd gd : Fd) (x : FVal) (v : V2VersionInfo)
    (h : gd ≠ fd) : getFd fd (setFd gd x v) = getFd fd v := by
  cases fd <;> cases gd <;> first
    | (exact absurd rfl h)
    | (cases x <;> rfl)

/-- String-keyed version of `getFd_setFd_ne`. -/
theorem getFieldVal_setFieldVal_ne (f g : String) (x : FVal)
    (v : V2VersionInfo) (h : g ≠ f) :
    getFieldVal f (setFieldVal g x v) = getFieldVal f v := by
  unfold getFieldVal setFieldVal
  cases hg : fieldOfKey g with
  | none => rfl
  | some gd =>
    cases hf : fieldOfKey f with
    | none => rfl
    | some fd =>
      have hne : gd ≠ fd := by
        intro he
        exact h (by rw [fieldOfKey_some hg, fieldOfKey_some hf, he])
      exact getFd_setFd_ne fd gd x v hne

/-- Writing a field's initial value and reading the field back gives that
value (the initial values have the right shapes). -/
theorem initial_set_get (f : String) (v : FVal)
    (hl : alookup f V2_FIELD_INITIAL_VALUES = some v) (x : V2VersionInfo) :
    getFieldVal f (setFieldVal f v x) = v := by
  have hm := alookup_some_mem hl
  fin_cases hm <;> rfl

/-- A field with no binding in the reset dict keeps its value. -/
theorem applyResets_not_mem (items : List (String × FVal))
    (x : V2VersionInfo) (f : String)
    (h : ∀ w, (f, w) ∉ items) :
    getFieldVal f (applyResets items x) = getFieldVal f x := by
  induction items generalizing x with
  | nil => rfl
  | cons gy rest ih =>
    obtain ⟨g, y⟩ := gy
    have hg : g ≠ f := by
      intro he
      exact h y (he ▸ List.mem_cons_self _ _)
    have step : applyResets ((g, y) :: rest) x
        = applyResets rest (setFieldVal g y x) := rfl
    rw [step, ih _ (fun w hw => h w (List.mem_cons_of_mem _ hw)),
      getFieldVal_setFieldVal_ne f g y x hg]

/-- A field bound in the reset dict, always to the same value, ends up
with that value. -/
theorem applyResets_val (items : List (String × FVal)) (x : V2VersionInfo)
    (f : String) (v : FVal)
    (hl : alookup f V2_FIELD_INITIAL_VALUES = some v)
    (huniq : ∀ w, (f, w) ∈ items → w = v)
    (hmem : (f, v) ∈ items) :
    getFieldVal f (applyResets items x) = v := by
  induction items generalizing x with
  | nil => exact absurd hmem (List.not_mem_nil _)
  | cons gy rest ih =>
    obtain ⟨g, y⟩ := gy
    have step : applyResets ((g, y) :: rest) x
        = applyResets rest (setFieldVal g y x) := rfl
    rw [step]
    by_cases hrest : ∃ w, (f, w) ∈ rest
    · obtain ⟨w, hw⟩ := hrest
      obtain rfl := huniq w (List.mem_cons_of_mem _ hw)
      exact ih (setFieldVal g y x)
        (fun w' hw' => huniq w' (List.mem_cons_of_mem _ hw')) hw
    · push_neg at hrest
      have hhead : (f, v) = (g, y) := by
        rcases List.mem_cons.mp hmem with h0 | h0
        · exact h0
        · exact absurd h0 (hrest v)
      rw [Prod.mk.injEq] at hhead
      obtain ⟨rfl, rfl⟩ := hhead
      rw [applyResets_not_mem rest _ f (fun w hw => hrest w hw),
        initial_set_get f v hl x]

/-- C2: in an increment transition over the pattern fields, exactly the
fields that sit strictly to the right of some old/candidate-differing
field and have a defined initial value are force-reset; and the version
info `_incr_numeric` applies the bump flags to (`resetBase`) already holds
each such field at its initial value. -/
theorem C2_reset_cascade (p : String) (fields : List String)
    (old cur : V2VersionInfo) (f : String) (v : FVal)
    (hp : parse_pattern_fields p = .ok fields) :
    ((f, v) ∈ iter_reset_field_items fields old cur ↔
      ∃ i, fields.get? i = some f ∧
        alookup f V2_FIELD_INITIAL_VALUES = some v ∧
        ∃ j g, j < i ∧ fields.get? j = some g ∧
          getFieldVal g old ≠ getFieldVal g cur) ∧
    ((f, v) ∈ iter_reset_field_items fields old cur →
      getFieldVal f (resetBase fields old cur) = v) := by
  have hmem := iter_reset_go_mem old cur f v fields false
  have hmem' : (f, v) ∈ iter_reset_field_items fields old cur ↔
      ∃ i, fields.get? i = some f ∧
        alookup f V2_FIELD_INITIAL_VALUES = some v ∧
        ∃ j g, j < i ∧ fields.get? j = some g ∧
          getFieldVal g old ≠ getFieldVal g cur := by
    rw [iter_reset_field_items, hmem]
    simp only [Bool.false_eq_true, false_or]
  refine ⟨hmem', fun hin => ?_⟩
  have hl : alookup f V2_FIELD_INITIAL_VALUES = some v := by
    obtain ⟨i, -, hlv, -⟩ := hmem'.mp hin
    exact hlv
  refine applyResets_val _ _ _ _ hl (fun w hw => ?_) hin
  have hlw : alookup f V2_FIELD_INITIAL_VALUES = some w := by
    obtain ⟨i, -, hlv, -⟩ :=
      (iter_reset_go_mem old cur f w fields false).mp hw
    exact hlv
  rw [hl] at hlw
  exact (Option.some.inj hlw).symm

/-- C2, witness: under `MAJOR.MINOR` with a changed major, `minor` is
reset to its initial value 0 in the pre-bump version info. -/
theorem C2_reset_cascade_witness :
    getFieldVal "minor"
      (resetBase ["major", "minor"]
        ⟨none, none, none, none, none, none, none, none, none,
         1, 7, 0, 0, some "1000", "final", "", 0, 1⟩
        ⟨none, none, none, none, none, none, none, none, none,
         2, 7, 0, 0, some "1000", "final", "", 0, 1⟩) = FVal.n 0 :=
  (C2_reset_cascade "MAJOR.MINOR" ["major", "minor"]
    ⟨none, none, none, none, none, none, none, none, none,
     1, 7, 0, 0, some "1000", "final", "", 0, 1⟩
    ⟨none, none, none, none, none, none, none, none, none,
     2, 7, 0, 0, some "1000", "final", "", 0, 1⟩
    "minor" (.n 0) (by decide)).2 (by decide)

/-- Every node has positive size. -/
theorem snSize_pos (n : SegNode) : 1 ≤ snSize n := by
  cases n <;> simp [snSize]

/-- The formatted children of a subtree: their results are exactly the
claim-side `renderList` texts, and the zero-aggregation fold computes the
claim-side `listAllZero` conjunction. -/
theorem formatList_spec (N : Nat) :
    ∀ (l : List SegNode) (pv : List (String × String)), snListSize l ≤ N →
      ((formatList l pv).map (fun fs => fs.result) = renderList l pv) ∧
      (∀ z : Bool, (formatList l pv).foldl
          (fun z fs => if fs.is_literal then z else z && fs.is_zero) z
        = (z && listAllZero l pv)) := by
  induction N with
  | zero =>
    intro l pv hle
    cases l with
    | nil => exact ⟨rfl, fun z => by simp [formatList, listAllZero]⟩
    | cons n r =>
      exfalso
      have h1 := snSize_pos n
      simp only [snListSize] at hle
      omega
  | succ N ihN =>
    intro l pv hle
    cases l with
    | nil => exact ⟨rfl, fun z => by simp [formatList, listAllZero]⟩
    | cons n r =>
      have hr : snListSize r ≤ N := by
        have h1 := snSize_pos n
        simp only [snListSize] at hle
        omega
      obtain ⟨ihmap, ihfold⟩ := ihN r pv hr
      cases n with
      | seg s =>
        constructor
        · simp only [formatList, formatNode, List.map_cons, renderList,
            renderNode, ihmap]
        · intro z
          cases hlit : (format_segment s pv).is_literal <;>
            simp [formatList, formatNode, List.foldl_cons, hlit, ihfold,
              listAllZero, nodeAllZero, Bool.and_assoc]
      | sub t =>
        have ht : snListSize t ≤ N := by
          simp only [snListSize, snSize] at hle
          omega
        obtain ⟨ihmapT, ihfoldT⟩ := ihN t pv ht
        have hnode : formatNode (.sub t) pv =
            ⟨false, listAllZero t pv,
             if listAllZero t pv then ""
             else String.join (renderList t pv)⟩ := by
          show aggregateSegs (formatList t pv) = _
          unfold aggregateSegs
          simp only [ihfoldT true, Bool.true_and, ihmapT]
        constructor
        · simp only [formatList, List.map_cons, hnode, renderList,
            renderNode, ihmap]
        · intro z
          simp [formatList, List.foldl_cons, hnode, ihfold, listAllZero,
            nodeAllZero, Bool.and_assoc]

/-- C4, amended: the formatted tree is never literal, is zero exactly when
every non-literal descendant renders all-zero (each nested group judged on
its own content, independently of its siblings), and renders as the empty
string when zero and otherwise as the concatenation of all child texts —
leaf segments included verbatim even when they are individually
zero-valued, nested groups contributing the empty string exactly when
they are all-zero on their own. -/
theorem C4_elision_characterization (t : List SegNode)
    (pv : List (String × String)) :
    format_segment_tree t pv =
      ⟨false, treeAllZero t pv,
       if treeAllZero t pv then "" else String.join (renderChildren t pv)⟩ := by
  obtain ⟨hmap, hfold⟩ := formatList_spec (snListSize t) t pv (le_refl _)
  unfold format_segment_tree aggregateSegs treeAllZero renderChildren
  simp only [hfold true, Bool.true_and, hmap]

/-! ## C1 helpers: decimal digit strings -/

/-- `natDigitsGo` does not depend on the fuel once it exceeds the number. -/
theorem natDigitsGo_fuel (f1 : Nat) : ∀ f2 n, n < f1 → n < f2 →
    natDigitsGo f1 n = natDigitsGo f2 n := by
  induction f1 with
  | zero => intro f2 n h1 _; omega
  | succ f1 ih =>
    intro f2 n h1 h2
    cases f2 with
    | zero => omega
    | succ f2 =>
      simp only [natDigitsGo]
      by_cases h10 : n < 10
      · rw [if_pos h10, if_pos h10]
      · have hd : n / 10 < n := Nat.div_lt_self (by omega) (by norm_num)
        rw [if_neg h10, if_neg h10, ih f2 (n / 10) (by omega) (by omega)]

/-- Digits of a one-digit number. -/
theorem natDigits_small {n : Nat} (h : n < 10) : natDigits n = [digitChar n] := by
  show natDigitsGo (n + 1) n = _
  simp only [natDigitsGo]
  rw [if_pos h]

/-- Digit recursion for numbers of at least two digits. -/
theorem natDigits_step {n : Nat} (h : 10 ≤ n) :
    natDigits n = natDigits (n / 10) ++ [digitChar (n % 10)] := by
  have hd : n / 10 < n := Nat.div_lt_self (by omega) (by norm_num)
  have h1 : natDigits n = natDigitsGo n (n / 10) ++ [digitChar (n % 10)] := by
    show natDigitsGo (n + 1) n = _
    simp only [natDigitsGo]
    rw [if_neg (by omega)]
  rw [h1, natDigitsGo_fuel n (n / 10 + 1) (n / 10) (by omega) (by omega)]
  rfl

/-- The digit characters are digits. -/
theorem isDig_digitChar {d : Nat} (h : d < 10) : isDig (digitChar d) = true := by
  interval_cases d <;> decide

/-- Value of a digit character. -/
theorem digVal_digitChar {d : Nat} (h : d < 10) : digVal (digitChar d) = d := by
  interval_cases d <;> decide

/-- Every character `natDigits` produces is a digit. -/
theorem natDigits_all_isDig (n : Nat) : (natDigits n).all isDig = true := by
  induction n using Nat.strong_induction_on with
  | _ n ih =>
    by_cases h : n < 10
    · rw [natDigits_small h]
      simp [isDig_digitChar h]
    · have hd : n / 10 < n := Nat.div_lt_self (by omega) (by norm_num)
      rw [natDigits_step (by omega : 10 ≤ n), List.all_append, ih (n / 10) hd]
      simp [isDig_digitChar (Nat.mod_lt n (by norm_num))]

/-- A character that is not a digit does not occur in an all-digit list. -/
theorem not_mem_of_all_isDig {l : List Char} {c : Char}
    (h : l.all isDig = true) (hc : isDig c = false) : c ∉ l := by
  intro hm
  rw [List.all_eq_true] at h
  have h2 := h c hm
  rw [hc] at h2
  exact absurd h2 (by simp)

/-- Numbers between 1000 and 9999 have four digits. -/
theorem natDigits_len4 {y : Nat} (h1 : 1000 ≤ y) (h2 : y ≤ 9999) :
    (natDigits y).length = 4 := by
  have s1 : natDigits y = natDigits (y / 10) ++ [digitChar (y % 10)] :=
    natDigits_step (by omega)
  have s2 : natDigits (y / 10)
      = natDigits (y / 10 / 10) ++ [digitChar (y / 10 % 10)] :=
    natDigits_step (by omega)
  have s3 : natDigits (y / 10 / 10)
      = natDigits (y / 10 / 10 / 10) ++ [digitChar (y / 10 / 10 % 10)] :=
    natDigits_step (by omega)
  have s4 : natDigits (y / 10 / 10 / 10) = [digitChar (y / 10 / 10 / 10)] :=
    natDigits_small (by omega)
  rw [s1, s2, s3, s4]
  simp

/-- Appending under the `strToNat` fold. -/
theorem strToNatAux_append (l1 l2 : List Char) :
    ∀ a, strToNatAux a (l1 ++ l2) = strToNatAux (strToNatAux a l1) l2 := by
  induction l1 with
  | nil => intro a; rfl
  | cons c tl ih =>
    intro a
    show strToNatAux (a * 10 + digVal c) (tl ++ l2)
        = strToNatAux (strToNatAux (a * 10 + digVal c) tl) l2
    exact ih _

/-- The `strToNat` fold over `natDigits`. -/
theorem strToNatAux_natDigits (n : Nat) :
    ∀ a, strToNatAux a (natDigits n) = a * 10 ^ (natDigits n).length + n := by
  induction n using Nat.strong_induction_on with
  | _ n ih =>
    intro a
    by_cases h : n < 10
    · rw [natDigits_small h]
      show strToNatAux (a * 10 + digVal (digitChar n)) [] = a * 10 ^ 1 + n
      rw [digVal_digitChar h]
      show a * 10 + n = a * 10 ^ 1 + n
      rw [pow_one]
    · have hd : n / 10 < n := Nat.div_lt_self (by omega) (by norm_num)
      rw [natDigits_step (by omega : 10 ≤ n), strToNatAux_append,
        ih (n / 10) hd]
      show (a * 10 ^ (natDigits (n / 10)).length + n / 10) * 10
            + digVal (digitChar (n % 10)) = _
      rw [digVal_digitChar (Nat.mod_lt n (by norm_num)), List.length_append]
      show _ = a * 10 ^ ((natDigits (n / 10)).length + 1) + n
      rw [pow_succ]
      have hB : ∀ B : Nat, (B + n / 10) * 10 + n % 10 = B * 10 + n := by
        intro B; omega
      calc (a * 10 ^ (natDigits (n / 10)).length + n / 10) * 10 + n % 10
          = a * 10 ^ (natDigits (n / 10)).length * 10 + n := hB _
        _ = a * (10 ^ (natDigits (n / 10)).length * 10) + n := by ring

/-- `int(str(n)) = n`. -/
theorem strToNat_natToStr (n : Nat) : strToNat (natToStr n) = n := by
  show strToNatAux 0 (natDigits n) = n
  rw [strToNatAux_natDigits]
  simp

/-- Shape, digits and value of a zero-padded month rendering. -/
theorem padNat2_facts {m : Nat} (h1 : 1 ≤ m) (h2 : m ≤ 12) :
    (padNat 2 m).data.length = 2 ∧ (padNat 2 m).data.all isDig = true ∧
      strToNatAux 0 (padNat 2 m).data = m := by
  interval_cases m <;> refine ⟨by decide, by decide, by decide⟩

/-! ## C1 helpers: substring replacement -/

/-- Splitting a falsified Boolean disjunction. -/
theorem bool_or_false {a b : Bool} (h : (a || b) = false) :
    a = false ∧ b = false := by
  cases a <;> cases b <;> simp_all

/-- `listPrefix` in terms of a decomposition. -/
theorem listPrefix_iff (p : List Char) : ∀ s,
    listPrefix p s = true ↔ ∃ t, s = p ++ t := by
  induction p with
  | nil =>
    intro s
    simp only [listPrefix, List.nil_append]
    exact ⟨fun _ => ⟨s, rfl⟩, fun _ => trivial⟩
  | cons a as ih =>
    intro s
    cases s with
    | nil =>
      simp only [listPrefix, List.cons_append]
      constructor
      · intro h; exact absurd h (by simp)
      · rintro ⟨t, ht⟩; exact absurd ht (by simp)
    | cons b bs =>
      simp only [listPrefix, Bool.and_eq_true, decide_eq_true_eq, ih,
        List.cons_append]
      constructor
      · rintro ⟨rfl, t, rfl⟩; exact ⟨t, rfl⟩
      · rintro ⟨t, ht⟩
        injection ht with h1 h2
        exact ⟨h1.symm, t, h2⟩

/-- A list is a prefix of itself extended. -/
theorem listPrefix_append_self (p t : List Char) :
    listPrefix p (p ++ t) = true := by
  rw [listPrefix_iff]
  exact ⟨t, rfl⟩

/-- Prefix membership transfers to the longer list. -/
theorem mem_of_listPrefix {p s : List Char} {c : Char}
    (h : listPrefix p s = true) (hc : c ∈ p) : c ∈ s := by
  obtain ⟨t, rfl⟩ := (listPrefix_iff p s).mp h
  exact List.mem_append_left t hc

/-- A pattern with a character missing from `s` does not occur in `s`. -/
theorem listContains_false_of_not_mem {s pat : List Char} {c : Char}
    (hc : c ∈ pat) (hs : c ∉ s) : listContains s pat = false := by
  induction s with
  | nil =>
    cases pat with
    | nil => cases hc
    | cons p ps => rfl
  | cons a tl ih =>
    show (listPrefix pat (a :: tl) || listContains tl pat) = false
    have h1 : listPrefix pat (a :: tl) = false := by
      cases hq : listPrefix pat (a :: tl) with
      | false => rfl
      | true => exact absurd (mem_of_listPrefix hq hc) hs
    have h2 : listContains tl pat = false :=
      ih (fun hm => hs (List.mem_cons_of_mem a hm))
    rw [h1, h2]
    rfl

/-- `listReplaceGo` does not depend on the fuel once it exceeds the input
length. -/
theorem listReplaceGo_fuel (f1 : Nat) : ∀ f2 s pat r, s.length < f1 →
    s.length < f2 → listReplaceGo f1 s pat r = listReplaceGo f2 s pat r := by
  induction f1 with
  | zero => intro f2 s pat r h1 _; omega
  | succ f1 ih =>
    intro f2 s pat r h1 h2
    cases f2 with
    | zero => omega
    | succ f2 =>
      cases s with
      | nil => simp only [listReplaceGo]
      | cons c tl =>
        cases pat with
        | nil => simp only [listReplaceGo]
        | cons p ps =>
          simp only [listReplaceGo]
          by_cases hp : listPrefix (p :: ps) (c :: tl) = true
          · rw [if_pos hp, if_pos hp]
            have hl1 : ((c :: tl).drop (p :: ps).length).length < f1 := by
              rw [List.length_drop]
              simp only [List.length_cons] at h1 ⊢
              omega
            have hl2 : ((c :: tl).drop (p :: ps).length).length < f2 := by
              rw [List.length_drop]
              simp only [List.length_cons] at h2 ⊢
              omega
            rw [ih f2 _ (p :: ps) r hl1 hl2]
          · rw [if_neg hp, if_neg hp]
            have hl1 : tl.length < f1 := by
              simp only [List.length_cons] at h1; omega
            have hl2 : tl.length < f2 := by
              simp only [List.length_cons] at h2; omega
            rw [ih f2 tl (p :: ps) r hl1 hl2]

/-- Replacing in the empty string. -/
theorem listReplace_nil (pat r : List Char) : listReplace [] pat r = [] := rfl

/-- Replacement walks past a position where the pattern does not occur. -/
theorem listReplace_nomatch {pat : List Char} (c : Char) (tl r : List Char)
    (hnp : listPrefix pat (c :: tl) = false) :
    listReplace (c :: tl) pat r = c :: listReplace tl pat r := by
  cases pat with
  | nil => simp [listPrefix] at hnp
  | cons p ps =>
    show (if listPrefix (p :: ps) (c :: tl) = true then
            r ++ listReplaceGo (tl.length + 1)
              ((c :: tl).drop (p :: ps).length) (p :: ps) r
          else c :: listReplaceGo (tl.length + 1) tl (p :: ps) r)
        = c :: listReplace tl (p :: ps) r
    rw [if_neg (by simp [hnp])]
    rfl

/-- Replacement fires on a leading occurrence and continues after it. -/
theorem listReplace_headmatch (pat y r : List Char) (hne : pat ≠ []) :
    listReplace (pat ++ y) pat r = r ++ listReplace y pat r := by
  cases pat with
  | nil => exact absurd rfl hne
  | cons p ps =>
    show (if listPrefix (p :: ps) ((p :: ps) ++ y) = true then
            r ++ listReplaceGo ((p :: ps) ++ y).length
              (((p :: ps) ++ y).drop (p :: ps).length) (p :: ps) r
          else p :: listReplaceGo ((p :: ps) ++ y).length (ps ++ y)
                 (p :: ps) r)
        = r ++ listReplace y (p :: ps) r
    rw [if_pos (listPrefix_append_self (p :: ps) y)]
    congr 1
    rw [List.drop_left]
    exact listReplaceGo_fuel _ _ y (p :: ps) r
      (by simp only [List.length_append, List.length_cons]; omega) (by omega)

/-- Replacement is the identity when the pattern does not occur. -/
theorem listReplace_not_contains {s pat : List Char} (r : List Char)
    (hne : pat ≠ []) (h : listContains s pat = false) :
    listReplace s pat r = s := by
  induction s with
  | nil => exact listReplace_nil pat r
  | cons c tl ih =>
    have h2 : (listPrefix pat (c :: tl) || listContains tl pat) = false := h
    obtain ⟨ha, hb⟩ := bool_or_false h2
    rw [listReplace_nomatch c tl r ha, ih hb]

/-- A pattern whose first occurrence of some character comes after a block
free of that character cannot match while still inside the block. -/
theorem listPrefix_template_false (p1 : List Char) :
    ∀ (X : List Char) (c : Char) (p2 t : List Char),
      c ∉ X → c ∉ p1 → X ≠ [] →
      listPrefix (p1 ++ c :: p2) (X ++ (p1 ++ c :: p2) ++ t) = false := by
  induction p1 with
  | nil =>
    intro X c p2 t hcx _ hX
    cases X with
    | nil => exact absurd rfl hX
    | cons x0 X2 =>
      have hne : ¬ (c = x0) := fun h => hcx (h ▸ List.mem_cons_self x0 X2)
      simp only [List.nil_append, List.cons_append, listPrefix]
      simp [hne]
  | cons q p1' ih =>
    intro X c p2 t hcx hcp1 hX
    cases X with
    | nil => exact absurd rfl hX
    | cons x0 X2 =>
      by_cases hq : q = x0
      · subst hq
        have hcq : ¬ (c = q) := fun h => hcp1 (h ▸ List.mem_cons_self q p1')
        have hL : listPrefix (p1' ++ c :: p2)
            ((X2 ++ [q]) ++ (p1' ++ c :: p2) ++ t) = false :=
          ih (X2 ++ [q]) c p2 t
            (by intro hm
                rcases List.mem_append.mp hm with h | h
                · exact hcx (List.mem_cons_of_mem q h)
                · rw [List.mem_singleton] at h
                  exact hcq h)
            (fun h => hcp1 (List.mem_cons_of_mem q h))
            (by simp)
        have hL2 : listPrefix (p1' ++ c :: p2)
            (X2 ++ (q :: (p1' ++ c :: p2)) ++ t) = false := by
          rw [show X2 ++ (q :: (p1' ++ c :: p2)) ++ t
              = (X2 ++ [q]) ++ (p1' ++ c :: p2) ++ t by simp]
          exact hL
        show (decide (q = q) && listPrefix (p1' ++ c :: p2)
            (X2 ++ (q :: (p1' ++ c :: p2)) ++ t)) = false
        rw [hL2]
        simp
      · show (decide (q = x0) && listPrefix (p1' ++ c :: p2)
            (X2 ++ ((q :: p1') ++ c :: p2) ++ t)) = false
        simp [hq]

/-- Replacing a pattern that occurs exactly once past a block that is free
of one of its distinguishing characters. -/
theorem listReplace_split (x pat y r p1 p2 : List Char) (c : Char)
    (hpat : pat = p1 ++ c :: p2) (hcx : c ∉ x) (hcp1 : c ∉ p1) :
    listReplace (x ++ pat ++ y) pat r = x ++ (r ++ listReplace y pat r) := by
  induction x with
  | nil =>
    simp only [List.nil_append]
    exact listReplace_headmatch pat y r (by simp [hpat])
  | cons a x2 ih =>
    have hnp : listPrefix pat ((a :: x2) ++ pat ++ y) = false := by
      rw [hpat]
      rw [show (a :: x2) ++ (p1 ++ c :: p2) ++ y
          = (a :: x2) ++ (p1 ++ c :: p2) ++ y from rfl]
      exact listPrefix_template_false p1 (a :: x2) c p2 y hcx hcp1 (by simp)
    rw [show (a :: x2) ++ pat ++ y = a :: (x2 ++ pat ++ y) by simp]
    rw [listReplace_nomatch a _ r
        (by rw [show a :: (x2 ++ pat ++ y) = (a :: x2) ++ pat ++ y by simp]
            exact hnp)]
    rw [ih (fun h => hcx (List.mem_cons_of_mem a h))]
    rfl

/-! ## C1 helpers: the matcher on digit blocks -/

/-- The digit run of a digit block followed by anything. -/
theorem digitRun_append {d : List Char} (rest : List Char)
    (hd : d.all isDig = true) : digitRun (d ++ rest) = d ++ digitRun rest := by
  induction d with
  | nil => rfl
  | cons c tl ih =>
    rw [List.all_cons, Bool.and_eq_true] at hd
    show (if isDig c = true then c :: digitRun (tl ++ rest) else [])
        = c :: (tl ++ digitRun rest)
    rw [if_pos hd.1, ih hd.2]

/-- Head of the candidate-width list. -/
theorem descLens_head {hi lo : Nat} (h : lo ≤ hi) :
    descLens hi lo
      = hi :: (List.range (hi - lo)).map (fun i => hi - (i + 1)) := by
  unfold descLens
  rw [if_neg (by omega), show hi + 1 - lo = (hi - lo) + 1 from by omega,
    List.range_succ_eq_map]
  simp [List.map_map, Function.comp_def, Nat.succ_eq_add_one]

/-- An exact-width digit sub-pattern consumes exactly its block. -/
theorem varDigits_exact {w : Nat} (cs d rest : List Char)
    (hcs : cs = d ++ rest) (hd : d.all isDig = true) (hlen : d.length = w) :
    varDigits w (some w) none cs = [((⟨d⟩ : String), rest)] := by
  subst hcs
  simp only [varDigits]
  rw [digitRun_append rest hd]
  rw [show min (d ++ digitRun rest).length w = w from by
    rw [List.length_append]; omega]
  rw [descLens_head (le_refl w), Nat.sub_self]
  simp only [List.range_zero, List.map_nil, List.filterMap_cons,
    List.filterMap_nil]
  rw [← hlen, List.take_left, List.drop_left]
  rfl

/-- An exact-width digit sub-pattern with a value range consumes exactly
its block when the value is in range. -/
theorem varDigits_exact_range {w lo hi : Nat} (cs d rest : List Char)
    (hcs : cs = d ++ rest) (hd : d.all isDig = true) (hlen : d.length = w)
    (hlo : lo ≤ strToNatAux 0 d) (hhi : strToNatAux 0 d ≤ hi) :
    varDigits w (some w) (some (lo, hi)) cs = [((⟨d⟩ : String), rest)] := by
  subst hcs
  simp only [varDigits]
  rw [digitRun_append rest hd]
  rw [show min (d ++ digitRun rest).length w = w from by
    rw [List.length_append]; omega]
  rw [descLens_head (le_refl w), Nat.sub_self]
  simp only [List.range_zero, List.map_nil, List.filterMap_cons,
    List.filterMap_nil]
  rw [← hlen, List.take_left, List.drop_left]
  simp [hlo, hhi]

/-- The greedy first candidate of an unbounded digit sub-pattern, when the
input is a digit block (of at least the minimum width) followed by a
non-digit suffix. -/
theorem varDigits_free_head {w : Nat} (cs d rest : List Char)
    (hcs : cs = d ++ rest) (hd : d.all isDig = true) (hw : w ≤ d.length)
    (hrest : digitRun rest = []) :
    ∃ more, varDigits w none none cs = ((⟨d⟩ : String), rest) :: more := by
  subst hcs
  simp only [varDigits]
  rw [digitRun_append rest hd, hrest, List.append_nil]
  rw [descLens_head hw]
  simp only [List.filterMap_cons]
  rw [List.take_left, List.drop_left]
  exact ⟨_, rfl⟩

/-- One literal-atom step of the matcher. -/
theorem pyMatchSeq_lit (f : Nat) (c : Char) (rest : List Atom)
    (cs : List Char) (caps : Caps) :
    pyMatchSeq (f + 1) (.lit c :: rest) (c :: cs) caps
      = pyMatchSeq f rest cs caps := by
  simp [pyMatchSeq]

/-- A literal atom fails on exhausted input. -/
theorem pyMatchSeq_lit_nil (f : Nat) (c : Char) (rest : List Atom)
    (caps : Caps) :
    pyMatchSeq (f + 1) (.lit c :: rest) [] caps = none := by
  simp [pyMatchSeq]

/-- The matcher accepts on an exhausted pattern. -/
theorem pyMatchSeq_nil (f : Nat) (cs : List Char) (caps : Caps) :
    pyMatchSeq (f + 1) ([] : List Atom) cs caps = some (caps, cs) := by
  simp [pyMatchSeq]

/-- One part-atom step of the matcher, through the head candidate when the
continuation succeeds on it. -/
theorem pyMatchSeq_part_head (f : Nat) (tok fld : String) (rest : List Atom)
    (cs : List Char) (caps : Caps) (x : String) (rem : List Char)
    (more : List (String × List Char)) (res : Caps × List Char)
    (hc : partCands tok cs = (x, rem) :: more)
    (hf : alookup tok PATTERN_PART_FIELDS = some fld)
    (h : pyMatchSeq f rest rem (setCap caps fld x) = some res) :
    pyMatchSeq (f + 1) (.part tok :: rest) cs caps = some res := by
  simp only [pyMatchSeq, hc, hf]
  rw [List.findSome?_cons]
  rw [h]

/-- One optional-group step when the group fails to match. -/
theorem pyMatchSeq_opt_fail (f : Nat) (g rest : List Atom) (cs : List Char)
    (caps : Caps)
    (hfail : pyMatchSeq f (g ++ rest) cs caps = none) :
    pyMatchSeq (f + 1) (.opt g :: rest) cs caps
      = pyMatchSeq f rest cs caps := by
  simp only [pyMatchSeq, hfail]

/-- One optional-group step when the group matches. -/
theorem pyMatchSeq_opt_take (f : Nat) (g rest : List Atom) (cs : List Char)
    (caps : Caps) (res : Caps × List Char)
    (h : pyMatchSeq f (g ++ rest) cs caps = some res) :
    pyMatchSeq (f + 1) (.opt g :: rest) cs caps = some res := by
  simp only [pyMatchSeq, h]

/-! ## C1 helpers: normalizing the default-pattern captures -/

/-- Normalizing the captures of the default pattern when the optional
release group did not match. -/
theorem pfv_shape_none (sy sm sb : String)
    (hy1000 : 1000 ≤ strToNat sy) (hm1 : 1 ≤ strToNat sm) :
    parse_field_values_to_vinfo
      [("year_y", some sy), ("month", some sm), ("bid", some sb),
       ("tag", (none : Option String))]
    = .ok { year_y := some (strToNat sy), year_g := none,
            quarter := some (quarter_from_month (strToNat sm)),
            month := some (strToNat sm), dom := none, doy := none,
            week_w := none, week_u := none, week_v := none,
            major := 0, minor := 0, patch := 0, num := 0,
            bid := some sb, tag := "final", pytag := "",
            inc0 := 0, inc1 := 1 } := by
  have hsy0 : strToNat sy ≠ 0 := by omega
  have hsm0 : strToNat sm ≠ 0 := by omega
  have hlt : ¬ strToNat sy < 1000 := by omega
  unfold parse_field_values_to_vinfo parse_field_values_to_cinfo
  simp [intOfKey, intOfKeyOr, strOfKey, alookup, truthy, hsy0, hsm0, hlt,
    Bind.bind, Except.bind]

/-- Normalizing the captures of the default pattern when the release group
matched a named tag. -/
theorem pfv_shape_some (sy sm sb t pt : String)
    (hy1000 : 1000 ≤ strToNat sy) (hm1 : 1 ≤ strToNat sm)
    (ht : t ≠ "") (hpt : alookup t PEP440_TAG_BY_RELEASE = some pt) :
    parse_field_values_to_vinfo
      [("year_y", some sy), ("month", some sm), ("bid", some sb),
       ("tag", some t)]
    = .ok { year_y := some (strToNat sy), year_g := none,
            quarter := some (quarter_from_month (strToNat sm)),
            month := some (strToNat sm), dom := none, doy := none,
            week_w := none, week_u := none, week_v := none,
            major := 0, minor := 0, patch := 0, num := 0,
            bid := some sb, tag := t, pytag := pt,
            inc0 := 0, inc1 := 1 } := by
  have hsy0 : strToNat sy ≠ 0 := by omega
  have hsm0 : strToNat sm ≠ 0 := by omega
  have hlt : ¬ strToNat sy < 1000 := by omega
  unfold parse_field_values_to_vinfo parse_field_values_to_cinfo
  simp [intOfKey, intOfKeyOr, strOfKey, alookup, truthy, hsy0, hsm0, hlt,
    ht, hpt, Bind.bind, Except.bind]
  show (alookup t PEP440_TAG_BY_RELEASE).getD "" = pt
  rw [hpt]
  rfl

/-! ## C1 helpers: rendering the default pattern -/

/-- Data of a two-string join. -/
theorem join_two_data (a b : String) :
    (String.join [a, b]).data = a.data ++ b.data := rfl

/-- The replace chain of the default pattern's main segment. -/
theorem seg1_result (y m : Nat) (b : String)
    (hb : b.data.all isDig = true) :
    strReplace (strReplace (strReplace (strReplace "vYYYY0M.BUILD"
        "BUILD" b) "YYYY" (natToStr y)) "YY" (natToStr (y % 100)))
        "0M" (padNat 2 m)
    = ⟨'v' :: ((natToStr y).data
        ++ ((padNat 2 m).data ++ ('.' :: b.data)))⟩ := by
  have hYb : 'Y' ∉ b.data := not_mem_of_all_isDig hb (by decide)
  have hMb : 'M' ∉ b.data := not_mem_of_all_isDig hb (by decide)
  have hYy : 'Y' ∉ (natToStr y).data :=
    not_mem_of_all_isDig (natDigits_all_isDig y) (by decide)
  have hMy : 'M' ∉ (natToStr y).data :=
    not_mem_of_all_isDig (natDigits_all_isDig y) (by decide)
  have e1 : strReplace "vYYYY0M.BUILD" "BUILD" b
      = ⟨"vYYYY0M.".data ++ b.data⟩ := by
    show (⟨listReplace ("vYYYY0M.BUILD" : String).data
        ("BUILD" : String).data b.data⟩ : String) = _
    congr 1
    rw [show ("vYYYY0M.BUILD" : String).data
        = ("vYYYY0M.".data ++ ("BUILD" : String).data) ++ ([] : List Char)
        from by decide]
    rw [listReplace_split "vYYYY0M.".data ("BUILD" : String).data []
        b.data [] ("UILD" : String).data 'B' (by decide) (by decide)
        (by decide)]
    rw [listReplace_nil]
    simp
  have e2 : strReplace (⟨"vYYYY0M.".data ++ b.data⟩ : String) "YYYY"
      (natToStr y)
      = ⟨'v' :: ((natToStr y).data ++ ("0M.".data ++ b.data))⟩ := by
    show (⟨listReplace ("vYYYY0M.".data ++ b.data)
        ("YYYY" : String).data (natToStr y).data⟩ : String) = _
    congr 1
    rw [show "vYYYY0M.".data ++ b.data
        = (['v'] ++ ("YYYY" : String).data) ++ ("0M.".data ++ b.data) from by
      rw [show ("vYYYY0M." : String).data
          = (['v'] ++ ("YYYY" : String).data) ++ ("0M." : String).data
          from by decide]
      simp]
    rw [listReplace_split ['v'] ("YYYY" : String).data
        ("0M.".data ++ b.data) (natToStr y).data [] ("YYY" : String).data
        'Y' (by decide) (by decide) (by decide)]
    rw [listReplace_not_contains (natToStr y).data (by decide)
        (listContains_false_of_not_mem
          (show 'Y' ∈ ("YYYY" : String).data by decide)
          (by intro hm
              rcases List.mem_append.mp hm with h | h
              · exact absurd h (by decide)
              · exact hYb h))]
    simp
  have e3 : strReplace
      (⟨'v' :: ((natToStr y).data ++ ("0M.".data ++ b.data))⟩ : String)
      "YY" (natToStr (y % 100))
      = ⟨'v' :: ((natToStr y).data ++ ("0M.".data ++ b.data))⟩ := by
    show (⟨listReplace ('v' :: ((natToStr y).data ++ ("0M.".data ++ b.data)))
        ("YY" : String).data (natToStr (y % 100)).data⟩ : String) = _
    congr 1
    apply listReplace_not_contains _ (by decide)
    apply listContains_false_of_not_mem
      (show 'Y' ∈ ("YY" : String).data by decide)
    intro hm
    rcases List.mem_cons.mp hm with h | h
    · exact absurd h (by decide)
    rcases List.mem_append.mp h with h2 | h2
    · exact hYy h2
    rcases List.mem_append.mp h2 with h3 | h3
    · exact absurd h3 (by decide)
    · exact hYb h3
  have e4 : strReplace
      (⟨'v' :: ((natToStr y).data ++ ("0M.".data ++ b.data))⟩ : String)
      "0M" (padNat 2 m)
      = ⟨'v' :: ((natToStr y).data
          ++ ((padNat 2 m).data ++ ('.' :: b.data)))⟩ := by
    show (⟨listReplace ('v' :: ((natToStr y).data ++ ("0M.".data ++ b.data)))
        ("0M" : String).data (padNat 2 m).data⟩ : String) = _
    congr 1
    rw [show 'v' :: ((natToStr y).data ++ ("0M.".data ++ b.data))
        = (('v' :: (natToStr y).data) ++ ("0M" : String).data)
            ++ ('.' :: b.data) from by
      rw [show ("0M." : String).data = ("0M" : String).data ++ ['.']
          from by decide]
      simp]
    rw [listReplace_split ('v' :: (natToStr y).data) ("0M" : String).data
        ('.' :: b.data) (padNat 2 m).data ['0'] [] 'M'
        (by decide)
        (by intro hm
            rcases List.mem_cons.mp hm with h | h
            · exact absurd h (by decide)
            · exact hMy h)
        (by decide)]
    rw [listReplace_not_contains (padNat 2 m).data (by decide)
        (listContains_false_of_not_mem
          (show 'M' ∈ ("0M" : String).data by decide)
          (by intro hm
              rcases List.mem_cons.mp hm with h | h
              · exact absurd h (by decide)
              · exact hMb h))]
    simp
  rw [e1, e2, e3, e4]

set_option maxHeartbeats 4000000 in
/-- The rendered part values of the shape `mkV` produces, sorted by token
length: the computation is purely structural, so this is definitional. -/
theorem fpv_eval (y q m mj mi pa nu : Nat) (b t pytag : String)
    (i0 i1 : Nat) :
    format_part_values (mkV y q m mj mi pa nu b t pytag i0 i1)
    = [("RELEASE", t),
       ("MAJOR", natToStr mj), ("MINOR", natToStr mi),
       ("PATCH", natToStr pa), ("BUILD", b), ("PYTAG", pytag),
       ("YYYY", natToStr y),
       ("BLD", natToStr (strToNat b)), ("NUM", natToStr nu),
       ("YY", natToStr (y % 100)), ("0Y", padNat 2 (y % 100)),
       ("MM", natToStr m), ("0M", padNat 2 m)] := rfl

/-- The round trip through the default pattern with a named tag. -/
theorem roundtrip_tagged (y q m mj mi pa nu : Nat)
    (b t pt pytag : String) (i0 i1 : Nat)
    (hy1 : 1000 ≤ y) (hy2 : y ≤ 9999) (hm1 : 1 ≤ m) (hm2 : m ≤ 12)
    (hb : b.data.all isDig = true) (hb4 : 4 ≤ b.data.length)
    (hne : t ≠ "") (hpt : alookup t PEP440_TAG_BY_RELEASE = some pt)
    (hz : is_zero_val "RELEASE" t = false)
    (hcand : partCands "RELEASE" t.data = [(t, ([] : List Char))]) :
    ∃ s w, format_version (mkV y q m mj mi pa nu b t pytag i0 i1)
        "vYYYY0M.BUILD[-RELEASE]" = .ok s ∧
      parse_version_info s "vYYYY0M.BUILD[-RELEASE]" = .ok w ∧
      w.year_y = some y ∧ w.month = some m ∧ w.bid = some b ∧
      w.tag = t := by
  have hseg1 : format_segment "vYYYY0M.BUILD"
      [("RELEASE", t),
       ("MAJOR", natToStr mj), ("MINOR", natToStr mi),
       ("PATCH", natToStr pa), ("BUILD", b), ("PYTAG", pytag),
       ("YYYY", natToStr y),
       ("BLD", natToStr (strToNat b)), ("NUM", natToStr nu),
       ("YY", natToStr (y % 100)), ("0Y", padNat 2 (y % 100)),
       ("MM", natToStr m), ("0M", padNat 2 m)]
      = ⟨false, false,
         strReplace (strReplace (strReplace (strReplace "vYYYY0M.BUILD"
           "BUILD" b) "YYYY" (natToStr y)) "YY" (natToStr (y % 100)))
           "0M" (padNat 2 m)⟩ := rfl
  have hres1 : format_segment "vYYYY0M.BUILD"
      [("RELEASE", t),
       ("MAJOR", natToStr mj), ("MINOR", natToStr mi),
       ("PATCH", natToStr pa), ("BUILD", b), ("PYTAG", pytag),
       ("YYYY", natToStr y),
       ("BLD", natToStr (strToNat b)), ("NUM", natToStr nu),
       ("YY", natToStr (y % 100)), ("0Y", padNat 2 (y % 100)),
       ("MM", natToStr m), ("0M", padNat 2 m)]
      = ⟨false, false, ⟨'v' :: ((natToStr y).data
          ++ ((padNat 2 m).data ++ ('.' :: b.data)))⟩⟩ := by
    rw [hseg1, seg1_result y m b hb]
  have hup2 : ([("RELEASE", t),
       ("MAJOR", natToStr mj), ("MINOR", natToStr mi),
       ("PATCH", natToStr pa), ("BUILD", b), ("PYTAG", pytag),
       ("YYYY", natToStr y),
       ("BLD", natToStr (strToNat b)), ("NUM", natToStr nu),
       ("YY", natToStr (y % 100)), ("0Y", padNat 2 (y % 100)),
       ("MM", natToStr m), ("0M", padNat 2 m)] :
        List (String × String)).filter
      (fun pv => strContains "-RELEASE" pv.1) = [("RELEASE", t)] := rfl
  have hrep2 : strReplace "-RELEASE" "RELEASE" t
      = ⟨'-' :: t.data⟩ := by
    show (⟨listReplace ("-RELEASE" : String).data
        ("RELEASE" : String).data t.data⟩ : String) = _
    congr 1
    rw [show ("-RELEASE" : String).data
        = (['-'] ++ ("RELEASE" : String).data) ++ ([] : List Char)
        from by decide]
    rw [listReplace_split ['-'] ("RELEASE" : String).data [] t.data
        [] ("ELEASE" : String).data 'R' (by decide) (by decide) (by decide)]
    rw [listReplace_nil]
    simp
  have hseg2 : format_segment "-RELEASE"
      [("RELEASE", t),
       ("MAJOR", natToStr mj), ("MINOR", natToStr mi),
       ("PATCH", natToStr pa), ("BUILD", b), ("PYTAG", pytag),
       ("YYYY", natToStr y),
       ("BLD", natToStr (strToNat b)), ("NUM", natToStr nu),
       ("YY", natToStr (y % 100)), ("0Y", padNat 2 (y % 100)),
       ("MM", natToStr m), ("0M", padNat 2 m)]
      = ⟨false, false, ⟨'-' :: t.data⟩⟩ := by
    simp only [format_segment]
    rw [hup2]
    simp only [List.filter_cons, List.filter_nil, hz, Bool.false_eq_true,
      if_false, List.length_cons, List.length_nil, List.foldl_cons,
      List.foldl_nil]
    rw [show strReplace (strReplace "-RELEASE" "\\[" "[") "\\]" "]"
        = "-RELEASE" from rfl]
    rw [hrep2]
    simp
  have htree : format_segment_tree
      [SegNode.seg "vYYYY0M.BUILD", SegNode.sub [SegNode.seg "-RELEASE"]]
      [("RELEASE", t),
       ("MAJOR", natToStr mj), ("MINOR", natToStr mi),
       ("PATCH", natToStr pa), ("BUILD", b), ("PYTAG", pytag),
       ("YYYY", natToStr y),
       ("BLD", natToStr (strToNat b)), ("NUM", natToStr nu),
       ("YY", natToStr (y % 100)), ("0Y", padNat 2 (y % 100)),
       ("MM", natToStr m), ("0M", padNat 2 m)]
      = ⟨false, false, String.join
          [(⟨'v' :: ((natToStr y).data
              ++ ((padNat 2 m).data ++ ('.' :: b.data)))⟩ : String),
           (⟨'-' :: t.data⟩ : String)]⟩ := by
    show aggregateSegs [format_segment "vYYYY0M.BUILD"
        [("RELEASE", t),
         ("MAJOR", natToStr mj), ("MINOR", natToStr mi),
         ("PATCH", natToStr pa), ("BUILD", b), ("PYTAG", pytag),
         ("YYYY", natToStr y),
         ("BLD", natToStr (strToNat b)), ("NUM", natToStr nu),
         ("YY", natToStr (y % 100)), ("0Y", padNat 2 (y % 100)),
         ("MM", natToStr m), ("0M", padNat 2 m)],
      aggregateSegs [format_segment "-RELEASE"
        [("RELEASE", t),
         ("MAJOR", natToStr mj), ("MINOR", natToStr mi),
         ("PATCH", natToStr pa), ("BUILD", b), ("PYTAG", pytag),
         ("YYYY", natToStr y),
         ("BLD", natToStr (strToNat b)), ("NUM", natToStr nu),
         ("YY", natToStr (y % 100)), ("0Y", padNat 2 (y % 100)),
         ("MM", natToStr m), ("0M", padNat 2 m)]]] = _
    rw [hres1, hseg2]
    rfl
  have hsdata : ((format_segment_tree
      [SegNode.seg "vYYYY0M.BUILD", SegNode.sub [SegNode.seg "-RELEASE"]]
      [("RELEASE", t),
       ("MAJOR", natToStr mj), ("MINOR", natToStr mi),
       ("PATCH", natToStr pa), ("BUILD", b), ("PYTAG", pytag),
       ("YYYY", natToStr y),
       ("BLD", natToStr (strToNat b)), ("NUM", natToStr nu),
       ("YY", natToStr (y % 100)), ("0Y", padNat 2 (y % 100)),
       ("MM", natToStr m), ("0M", padNat 2 m)]).result).data
      = 'v' :: ((natToStr y).data ++ ((padNat 2 m).data
          ++ ('.' :: (b.data ++ ('-' :: t.data))))) := by
    rw [htree, join_two_data]
    show ('v' :: ((natToStr y).data
        ++ ((padNat 2 m).data ++ ('.' :: b.data)))) ++ ('-' :: t.data) = _
    simp [List.append_assoc]
  have hfmt : format_version (mkV y q m mj mi pa nu b t pytag i0 i1)
      "vYYYY0M.BUILD[-RELEASE]"
      = .ok ((format_segment_tree
          [SegNode.seg "vYYYY0M.BUILD", SegNode.sub [SegNode.seg "-RELEASE"]]
          (format_part_values
            (mkV y q m mj mi pa nu b t pytag i0 i1))).result) := rfl
  rw [fpv_eval y q m mj mi pa nu b t pytag i0 i1] at hfmt
  have hca : strToNat (natToStr y) = y := strToNat_natToStr y
  have hcm : strToNat (padNat 2 m) = m := (padNat2_facts hm1 hm2).2.2
  have hpfv := pfv_shape_some (natToStr y) (padNat 2 m) ⟨b.data⟩ t pt
    (by rw [hca]; omega) (by rw [hcm]; omega) hne hpt
  rw [hca, hcm] at hpfv
  have hdr : digitRun ('-' :: t.data) = [] := rfl
  obtain ⟨more, hbc⟩ := varDigits_free_head (b.data ++ ('-' :: t.data))
    b.data ('-' :: t.data) rfl hb hb4 hdr
  have t6 : pyMatchSeq 1 ([] : List Atom) []
      [("year_y", some (natToStr y)), ("month", some (padNat 2 m)),
       ("bid", some (⟨b.data⟩ : String)), ("tag", some t)]
      = some ([("year_y", some (natToStr y)), ("month", some (padNat 2 m)),
               ("bid", some (⟨b.data⟩ : String)), ("tag", some t)], []) :=
    pyMatchSeq_nil 0 [] _
  have t5 : pyMatchSeq 2 [Atom.part "RELEASE"] t.data
      [("year_y", some (natToStr y)), ("month", some (padNat 2 m)),
       ("bid", some (⟨b.data⟩ : String)), ("tag", none)]
      = some ([("year_y", some (natToStr y)), ("month", some (padNat 2 m)),
               ("bid", some (⟨b.data⟩ : String)), ("tag", some t)], []) :=
    pyMatchSeq_part_head 1 "RELEASE" "tag" [] t.data _ t [] [] _ hcand rfl t6
  have t4 : pyMatchSeq 3 [Atom.lit '-', Atom.part "RELEASE"] ('-' :: t.data)
      [("year_y", some (natToStr y)), ("month", some (padNat 2 m)),
       ("bid", some (⟨b.data⟩ : String)), ("tag", none)]
      = some ([("year_y", some (natToStr y)), ("month", some (padNat 2 m)),
               ("bid", some (⟨b.data⟩ : String)), ("tag", some t)], []) :=
    (pyMatchSeq_lit 2 '-' [Atom.part "RELEASE"] t.data _).trans t5
  have t3 : pyMatchSeq 4 [Atom.opt [Atom.lit '-', Atom.part "RELEASE"]]
      ('-' :: t.data)
      [("year_y", some (natToStr y)), ("month", some (padNat 2 m)),
       ("bid", some (⟨b.data⟩ : String)), ("tag", none)]
      = some ([("year_y", some (natToStr y)), ("month", some (padNat 2 m)),
               ("bid", some (⟨b.data⟩ : String)), ("tag", some t)], []) :=
    pyMatchSeq_opt_take 3 [Atom.lit '-', Atom.part "RELEASE"] []
      ('-' :: t.data) _ _ t4
  have t2 : pyMatchSeq 5
      [Atom.part "BUILD", Atom.opt [Atom.lit '-', Atom.part "RELEASE"]]
      (b.data ++ ('-' :: t.data))
      [("year_y", some (natToStr y)), ("month", some (padNat 2 m)),
       ("bid", none), ("tag", none)]
      = some ([("year_y", some (natToStr y)), ("month", some (padNat 2 m)),
               ("bid", some (⟨b.data⟩ : String)), ("tag", some t)], []) :=
    pyMatchSeq_part_head 4 "BUILD" "bid"
      [Atom.opt [Atom.lit '-', Atom.part "RELEASE"]]
      (b.data ++ ('-' :: t.data)) _ ⟨b.data⟩ ('-' :: t.data) more _
      hbc rfl t3
  have t1a : pyMatchSeq 6
      (Atom.lit '.' :: [Atom.part "BUILD",
        Atom.opt [Atom.lit '-', Atom.part "RELEASE"]])
      ('.' :: (b.data ++ ('-' :: t.data)))
      [("year_y", some (natToStr y)), ("month", some (padNat 2 m)),
       ("bid", none), ("tag", none)]
      = some ([("year_y", some (natToStr y)), ("month", some (padNat 2 m)),
               ("bid", some (⟨b.data⟩ : String)), ("tag", some t)], []) :=
    (pyMatchSeq_lit 5 '.' _ _ _).trans t2
  have t1 : pyMatchSeq 7
      (Atom.part "0M" :: (Atom.lit '.' :: [Atom.part "BUILD",
        Atom.opt [Atom.lit '-', Atom.part "RELEASE"]]))
      ((padNat 2 m).data ++ ('.' :: (b.data ++ ('-' :: t.data))))
      [("year_y", some (natToStr y)), ("month", none),
       ("bid", none), ("tag", none)]
      = some ([("year_y", some (natToStr y)), ("month", some (padNat 2 m)),
               ("bid", some (⟨b.data⟩ : String)), ("tag", some t)], []) :=
    pyMatchSeq_part_head 6 "0M" "month" _ _ _ (padNat 2 m)
      ('.' :: (b.data ++ ('-' :: t.data))) [] _
      (varDigits_exact_range _ (padNat 2 m).data
        ('.' :: (b.data ++ ('-' :: t.data))) rfl
        (padNat2_facts hm1 hm2).2.1 (padNat2_facts hm1 hm2).1
        (by rw [(padNat2_facts hm1 hm2).2.2]; omega)
        (by rw [(padNat2_facts hm1 hm2).2.2]; omega))
      rfl t1a
  have t0a : pyMatchSeq 8
      (Atom.part "YYYY" :: (Atom.part "0M" :: (Atom.lit '.' ::
        [Atom.part "BUILD", Atom.opt [Atom.lit '-', Atom.part "RELEASE"]])))
      ((natToStr y).data ++ ((padNat 2 m).data
        ++ ('.' :: (b.data ++ ('-' :: t.data)))))
      [("year_y", none), ("month", none), ("bid", none), ("tag", none)]
      = some ([("year_y", some (natToStr y)), ("month", some (padNat 2 m)),
               ("bid", some (⟨b.data⟩ : String)), ("tag", some t)], []) :=
    pyMatchSeq_part_head 7 "YYYY" "year_y" _ _ _ (natToStr y)
      ((padNat 2 m).data ++ ('.' :: (b.data ++ ('-' :: t.data)))) [] _
      (varDigits_exact _ (natToStr y).data
        ((padNat 2 m).data ++ ('.' :: (b.data ++ ('-' :: t.data)))) rfl
        (natDigits_all_isDig y) (natDigits_len4 hy1 hy2))
      rfl t1
  have hmatch : pyMatch
      [Atom.lit 'v', Atom.part "YYYY", Atom.part "0M", Atom.lit '.',
       Atom.part "BUILD", Atom.opt [Atom.lit '-', Atom.part "RELEASE"]]
      ('v' :: ((natToStr y).data ++ ((padNat 2 m).data
        ++ ('.' :: (b.data ++ ('-' :: t.data))))))
      = some ([("year_y", some (natToStr y)), ("month", some (padNat 2 m)),
               ("bid", some (⟨b.data⟩ : String)), ("tag", some t)], []) :=
    (pyMatchSeq_lit 8 'v' _ _ _).trans t0a
  refine ⟨_, { year_y := some y, year_g := none,
               quarter := some (quarter_from_month m), month := some m,
               dom := none, doy := none, week_w := none, week_u := none,
               week_v := none, major := 0, minor := 0, patch := 0, num := 0,
               bid := some b, tag := t, pytag := pt, inc0 := 0, inc1 := 1 },
          hfmt, ?_, rfl, rfl, rfl, rfl⟩
  unfold parse_version_info
  rw [show compile_pattern "vYYYY0M.BUILD[-RELEASE]"
      = .ok [Atom.lit 'v', Atom.part "YYYY", Atom.part "0M", Atom.lit '.',
             Atom.part "BUILD", Atom.opt [Atom.lit '-', Atom.part "RELEASE"]]
      from rfl]
  simp only [Bind.bind, Except.bind]
  rw [hsdata, hmatch]
  exact hpfv

/-- The round trip through the default pattern with the final tag: the
release group is elided on the way out and absent on the way back. -/
theorem roundtrip_final (y q m mj mi pa nu : Nat)
    (b pytag : String) (i0 i1 : Nat)
    (hy1 : 1000 ≤ y) (hy2 : y ≤ 9999) (hm1 : 1 ≤ m) (hm2 : m ≤ 12)
    (hb : b.data.all isDig = true) (hb4 : 4 ≤ b.data.length) :
    ∃ s w, format_version (mkV y q m mj mi pa nu b "final" pytag i0 i1)
        "vYYYY0M.BUILD[-RELEASE]" = .ok s ∧
      parse_version_info s "vYYYY0M.BUILD[-RELEASE]" = .ok w ∧
      w.year_y = some y ∧ w.month = some m ∧ w.bid = some b ∧
      w.tag = "final" := by
  have hseg1 : format_segment "vYYYY0M.BUILD"
      [("RELEASE", "final"),
       ("MAJOR", natToStr mj), ("MINOR", natToStr mi),
       ("PATCH", natToStr pa), ("BUILD", b), ("PYTAG", pytag),
       ("YYYY", natToStr y),
       ("BLD", natToStr (strToNat b)), ("NUM", natToStr nu),
       ("YY", natToStr (y % 100)), ("0Y", padNat 2 (y % 100)),
       ("MM", natToStr m), ("0M", padNat 2 m)]
      = ⟨false, false,
         strReplace (strReplace (strReplace (strReplace "vYYYY0M.BUILD"
           "BUILD" b) "YYYY" (natToStr y)) "YY" (natToStr (y % 100)))
           "0M" (padNat 2 m)⟩ := rfl
  have hres1 : format_segment "vYYYY0M.BUILD"
      [("RELEASE", "final"),
       ("MAJOR", natToStr mj), ("MINOR", natToStr mi),
       ("PATCH", natToStr pa), ("BUILD", b), ("PYTAG", pytag),
       ("YYYY", natToStr y),
       ("BLD", natToStr (strToNat b)), ("NUM", natToStr nu),
       ("YY", natToStr (y % 100)), ("0Y", padNat 2 (y % 100)),
       ("MM", natToStr m), ("0M", padNat 2 m)]
      = ⟨false, false, ⟨'v' :: ((natToStr y).data
          ++ ((padNat 2 m).data ++ ('.' :: b.data)))⟩⟩ := by
    rw [hseg1, seg1_result y m b hb]
  have htree : format_segment_tree
      [SegNode.seg "vYYYY0M.BUILD", SegNode.sub [SegNode.seg "-RELEASE"]]
      [("RELEASE", "final"),
       ("MAJOR", natToStr mj), ("MINOR", natToStr mi),
       ("PATCH", natToStr pa), ("BUILD", b), ("PYTAG", pytag),
       ("YYYY", natToStr y),
       ("BLD", natToStr (strToNat b)), ("NUM", natToStr nu),
       ("YY", natToStr (y % 100)), ("0Y", padNat 2 (y % 100)),
       ("MM", natToStr m), ("0M", padNat 2 m)]
      = ⟨false, false, String.join
          [(⟨'v' :: ((natToStr y).data
              ++ ((padNat 2 m).data ++ ('.' :: b.data)))⟩ : String),
           ("" : String)]⟩ := by
    show aggregateSegs [format_segment "vYYYY0M.BUILD"
        [("RELEASE", "final"),
         ("MAJOR", natToStr mj), ("MINOR", natToStr mi),
         ("PATCH", natToStr pa), ("BUILD", b), ("PYTAG", pytag),
         ("YYYY", natToStr y),
         ("BLD", natToStr (strToNat b)), ("NUM", natToStr nu),
         ("YY", natToStr (y % 100)), ("0Y", padNat 2 (y % 100)),
         ("MM", natToStr m), ("0M", padNat 2 m)],
      aggregateSegs [format_segment "-RELEASE"
        [("RELEASE", "final"),
         ("MAJOR", natToStr mj), ("MINOR", natToStr mi),
         ("PATCH", natToStr pa), ("BUILD", b), ("PYTAG", pytag),
         ("YYYY", natToStr y),
         ("BLD", natToStr (strToNat b)), ("NUM", natToStr nu),
         ("YY", natToStr (y % 100)), ("0Y", padNat 2 (y % 100)),
         ("MM", natToStr m), ("0M", padNat 2 m)]]] = _
    rw [hres1]
    rfl
  have hsdata : ((format_segment_tree
      [SegNode.seg "vYYYY0M.BUILD", SegNode.sub [SegNode.seg "-RELEASE"]]
      [("RELEASE", "final"),
       ("MAJOR", natToStr mj), ("MINOR", natToStr mi),
       ("PATCH", natToStr pa), ("BUILD", b), ("PYTAG", pytag),
       ("YYYY", natToStr y),
       ("BLD", natToStr (strToNat b)), ("NUM", natToStr nu),
       ("YY", natToStr (y % 100)), ("0Y", padNat 2 (y % 100)),
       ("MM", natToStr m), ("0M", padNat 2 m)]).result).data
      = 'v' :: ((natToStr y).data ++ ((padNat 2 m).data
          ++ ('.' :: (b.data ++ ([] : List Char))))) := by
    rw [htree, join_two_data]
    show ('v' :: ((natToStr y).data
        ++ ((padNat 2 m).data ++ ('.' :: b.data)))) ++ ([] : List Char) = _
    simp
  have hfmt : format_version (mkV y q m mj mi pa nu b "final" pytag i0 i1)
      "vYYYY0M.BUILD[-RELEASE]"
      = .ok ((format_segment_tree
          [SegNode.seg "vYYYY0M.BUILD", SegNode.sub [SegNode.seg "-RELEASE"]]
          (format_part_values
            (mkV y q m mj mi pa nu b "final" pytag i0 i1))).result) := rfl
  rw [fpv_eval y q m mj mi pa nu b "final" pytag i0 i1] at hfmt
  have hca : strToNat (natToStr y) = y := strToNat_natToStr y
  have hcm : strToNat (padNat 2 m) = m := (padNat2_facts hm1 hm2).2.2
  have hpfv := pfv_shape_none (natToStr y) (padNat 2 m) ⟨b.data⟩
    (by rw [hca]; omega) (by rw [hcm]; omega)
  rw [hca, hcm] at hpfv
  obtain ⟨more, hbc⟩ := varDigits_free_head (b.data ++ ([] : List Char))
    b.data [] rfl hb hb4 rfl
  have t4 : pyMatchSeq 3
      ([Atom.lit '-', Atom.part "RELEASE"] ++ ([] : List Atom)) []
      [("year_y", some (natToStr y)), ("month", some (padNat 2 m)),
       ("bid", some (⟨b.data⟩ : String)), ("tag", none)] = none :=
    pyMatchSeq_lit_nil 2 '-' [Atom.part "RELEASE"] _
  have t3 : pyMatchSeq 4 [Atom.opt [Atom.lit '-', Atom.part "RELEASE"]] []
      [("year_y", some (natToStr y)), ("month", some (padNat 2 m)),
       ("bid", some (⟨b.data⟩ : String)), ("tag", none)]
      = some ([("year_y", some (natToStr y)), ("month", some (padNat 2 m)),
               ("bid", some (⟨b.data⟩ : String)), ("tag", none)], []) :=
    (pyMatchSeq_opt_fail 3 [Atom.lit '-', Atom.part "RELEASE"] [] [] _
      t4).trans (pyMatchSeq_nil 2 [] _)
  have t2 : pyMatchSeq 5
      [Atom.part "BUILD", Atom.opt [Atom.lit '-', Atom.part "RELEASE"]]
      (b.data ++ ([] : List Char))
      [("year_y", some (natToStr y)), ("month", some (padNat 2 m)),
       ("bid", none), ("tag", none)]
      = some ([("year_y", some (natToStr y)), ("month", some (padNat 2 m)),
               ("bid", some (⟨b.data⟩ : String)), ("tag", none)], []) :=
    pyMatchSeq_part_head 4 "BUILD" "bid"
      [Atom.opt [Atom.lit '-', Atom.part "RELEASE"]]
      (b.data ++ ([] : List Char)) _ ⟨b.data⟩ [] more _ hbc rfl t3
  have t1a : pyMatchSeq 6
      (Atom.lit '.' :: [Atom.part "BUILD",
        Atom.opt [Atom.lit '-', Atom.part "RELEASE"]])
      ('.' :: (b.data ++ ([] : List Char)))
      [("year_y", some (natToStr y)), ("month", some (padNat 2 m)),
       ("bid", none), ("tag", none)]
      = some ([("year_y", some (natToStr y)), ("month", some (padNat 2 m)),
               ("bid", some (⟨b.data⟩ : String)), ("tag", none)], []) :=
    (pyMatchSeq_lit 5 '.' _ _ _).trans t2
  have t1 : pyMatchSeq 7
      (Atom.part "0M" :: (Atom.lit '.' :: [Atom.part "BUILD",
        Atom.opt [Atom.lit '-', Atom.part "RELEASE"]]))
      ((padNat 2 m).data ++ ('.' :: (b.data ++ ([] : List Char))))
      [("year_y", some (natToStr y)), ("month", none),
       ("bid", none), ("tag", none)]
      = some ([("year_y", some (natToStr y)), ("month", some (padNat 2 m)),
               ("bid", some (⟨b.data⟩ : String)), ("tag", none)], []) :=
    pyMatchSeq_part_head 6 "0M" "month" _ _ _ (padNat 2 m)
      ('.' :: (b.data ++ ([] : List Char))) [] _
      (varDigits_exact_range _ (padNat 2 m).data
        ('.' :: (b.data ++ ([] : List Char))) rfl
        (padNat2_facts hm1 hm2).2.1 (padNat2_facts hm1 hm2).1
        (by rw [(padNat2_facts hm1 hm2).2.2]; omega)
        (by rw [(padNat2_facts hm1 hm2).2.2]; omega))
      rfl t1a
  have t0a : pyMatchSeq 8
      (Atom.part "YYYY" :: (Atom.part "0M" :: (Atom.lit '.' ::
        [Atom.part "BUILD", Atom.opt [Atom.lit '-', Atom.part "RELEASE"]])))
      ((natToStr y).data ++ ((padNat 2 m).data
        ++ ('.' :: (b.data ++ ([] : List Char)))))
      [("year_y", none), ("month", none), ("bid", none), ("tag", none)]
      = some ([("year_y", some (natToStr y)), ("month", some (padNat 2 m)),
               ("bid", some (⟨b.data⟩ : String)), ("tag", none)], []) :=
    pyMatchSeq_part_head 7 "YYYY" "year_y" _ _ _ (natToStr y)
      ((padNat 2 m).data ++ ('.' :: (b.data ++ ([] : List Char)))) [] _
      (varDigits_exact _ (natToStr y).data
        ((padNat 2 m).data ++ ('.' :: (b.data ++ ([] : List Char)))) rfl
        (natDigits_all_isDig y) (natDigits_len4 hy1 hy2))
      rfl t1
  have hmatch : pyMatch
      [Atom.lit 'v', Atom.part "YYYY", Atom.part "0M", Atom.lit '.',
       Atom.part "BUILD", Atom.opt [Atom.lit '-', Atom.part "RELEASE"]]
      ('v' :: ((natToStr y).data ++ ((padNat 2 m).data
        ++ ('.' :: (b.data ++ ([] : List Char))))))
      = some ([("year_y", some (natToStr y)), ("month", some (padNat 2 m)),
               ("bid", some (⟨b.data⟩ : String)), ("tag", none)], []) :=
    (pyMatchSeq_lit 8 'v' _ _ _).trans t0a
  refine ⟨_, { year_y := some y, year_g := none,
               quarter := some (quarter_from_month m), month := some m,
               dom := none, doy := none, week_w := none, week_u := none,
               week_v := none, major := 0, minor := 0, patch := 0, num := 0,
               bid := some b, tag := "final", pytag := "",
               inc0 := 0, inc1 := 1 },
          hfmt, ?_, rfl, rfl, rfl, rfl⟩
  unfold parse_version_info
  rw [show compile_pattern "vYYYY0M.BUILD[-RELEASE]"
      = .ok [Atom.lit 'v', Atom.part "YYYY", Atom.part "0M", Atom.lit '.',
             Atom.part "BUILD", Atom.opt [Atom.lit '-', Atom.part "RELEASE"]]
      from rfl]
  simp only [Bind.bind, Except.bind]
  rw [hsdata, hmatch]
  exact hpfv

/-! ## C1: round trip -/

/-- C1, counterexample: under the pattern `MAJORMINOR` (two adjacent
variable-width parts) with `major = 1, minor = 23` — values consistent
with the referenced fields — formatting yields `123`, but parsing `123`
back assigns `major = 12, minor = 3` (the leftmost-greedy match), so the
round trip fails on the fields present in the pattern. -/
theorem C1_adjacent_parts_break_roundtrip :
    format_version
        ⟨none, none, none, none, none, none, none, none, none,
         1, 23, 0, 0, some "1000", "final", "", 0, 1⟩
        "MAJORMINOR" = .ok "123" ∧
    (parse_version_info "123" "MAJORMINOR").map (fun w => (w.major, w.minor))
      = .ok (12, 3) ∧
    ((12, 3) : Nat × Nat) ≠ (1, 23) := by
  exact ⟨by decide, by decide, by decide⟩

/-- C1, amended: the round trip holds for the default pattern
`vYYYY0M.BUILD[-RELEASE]`.  For every VersionInfo of the shape that
pattern parses to (a four-digit year, a month between 1 and 12, an
all-digit build id of width at least four, one of the six release tags,
and arbitrary values in the fields the pattern does not render),
formatting succeeds and parsing the rendered string back recovers the
year, month, build id and tag exactly. -/
theorem C1_default_pattern_roundtrip (y q m mj mi pa nu : Nat)
    (b tag pytag : String) (i0 i1 : Nat)
    (hy1 : 1000 ≤ y) (hy2 : y ≤ 9999) (hm1 : 1 ≤ m) (hm2 : m ≤ 12)
    (hb : b.data.all isDig = true) (hb4 : 4 ≤ b.data.length)
    (htag : tag ∈ ["alpha", "beta", "dev", "rc", "post", "final"]) :
    ∃ s w, format_version (mkV y q m mj mi pa nu b tag pytag i0 i1)
        "vYYYY0M.BUILD[-RELEASE]" = .ok s ∧
      parse_version_info s "vYYYY0M.BUILD[-RELEASE]" = .ok w ∧
      w.year_y = some y ∧ w.month = some m ∧ w.bid = some b ∧
      w.tag = tag := by
  simp only [List.mem_cons, List.not_mem_nil, or_false] at htag
  rcases htag with rfl | rfl | rfl | rfl | rfl | rfl
  · exact roundtrip_tagged y q m mj mi pa nu b "alpha" "a" pytag i0 i1
      hy1 hy2 hm1 hm2 hb hb4 (by decide) (by decide) (by decide) (by decide)
  · exact roundtrip_tagged y q m mj mi pa nu b "beta" "b" pytag i0 i1
      hy1 hy2 hm1 hm2 hb hb4 (by decide) (by decide) (by decide) (by decide)
  · exact roundtrip_tagged y q m mj mi pa nu b "dev" "dev" pytag i0 i1
      hy1 hy2 hm1 hm2 hb hb4 (by decide) (by decide) (by decide) (by decide)
  · exact roundtrip_tagged y q m mj mi pa nu b "rc" "rc" pytag i0 i1
      hy1 hy2 hm1 hm2 hb hb4 (by decide) (by decide) (by decide) (by decide)
  · exact roundtrip_tagged y q m mj mi pa nu b "post" "post" pytag i0 i1
      hy1 hy2 hm1 hm2 hb hb4 (by decide) (by decide) (by decide) (by decide)
  · exact roundtrip_final y q m mj mi pa nu b pytag i0 i1
      hy1 hy2 hm1 hm2 hb hb4

/-- C1, witness: the amended round trip at the concrete input
`mkV 2024 3 7 0 0 0 0 "1234" "beta" "" 0 1`. -/
theorem C1_default_pattern_roundtrip_witness :
    ∃ s w, format_version (mkV 2024 3 7 0 0 0 0 "1234" "beta" "" 0 1)
        "vYYYY0M.BUILD[-RELEASE]" = .ok s ∧
      parse_version_info s "vYYYY0M.BUILD[-RELEASE]" = .ok w ∧
      w.year_y = some 2024 ∧ w.month = some 7 ∧ w.bid = some "1234" ∧
      w.tag = "beta" :=
  C1_default_pattern_roundtrip 2024 3 7 0 0 0 0 "1234" "beta" "" 0 1
    (by decide) (by decide) (by decide) (by decide) (by decide) (by decide)
    (by decide)

end PyCalVer
